import Mathlib

/-!
# scl control core: joint-space controller and task controller

A shallow embedding of `src/scl/control/gc/CGcController.cpp` and
`src/scl/control/task/CTaskController.cpp`.

Conventions of the embedding

* `double` is a linearly ordered field `α` (exact arithmetic); the concrete
  evaluations use `ℚ`.
* `Eigen::VectorXd` of length `dof` is `Fin dof → α`, `Eigen::MatrixXd` of size
  `dof × dof` is `Matrix (Fin dof) (Fin dof) α`.
* A C++ pointer is an `Option`: `none` is `S_NULL`.  A call that dereferences a
  null pointer, reads an iterator at the end position or reads a list element
  after it was erased has no result (`none`).
* A `try` block is a function that also answers whether it ran to its end; a
  `throw` ends it with the state reached so far, which the handler receives.
* Code outside the two sources (dynamics engine, type registry, task objects,
  servo) is a parameter `Env` of arbitrary functions.
-/

namespace scl

/-! ## Eigen array operations used by the sources -/

/-- Coefficient-wise product, `a.array() * b.array()`. -/
def cwiseProduct {α : Type} [Mul α] {n : Nat} (a b : Fin n → α) : Fin n → α :=
  fun i => a i * b i

/-- Coefficient-wise minimum, `a.array().min(b.array())`. -/
def cwiseMin {α : Type} [Min α] {n : Nat} (a b : Fin n → α) : Fin n → α :=
  fun i => min (a i) (b i)

/-- Coefficient-wise maximum, `a.array().max(b.array())`. -/
def cwiseMax {α : Type} [Max α] {n : Nat} (a b : Fin n → α) : Fin n → α :=
  fun i => max (a i) (b i)

/-! ## Data structures of the joint-space controller -/

/-- Sensor block of the robot I/O buffers (`SRobotIO::sensors_`). -/
structure SRobotSensors (α : Type) (dof : Nat) where
  q_ : Fin dof → α
  dq_ : Fin dof → α
  ddq_ : Fin dof → α

/-- Actuator block of the robot I/O buffers (`SRobotIO::actuators_`). -/
structure SRobotActuators (α : Type) (dof : Nat) where
  force_gc_commanded_ : Fin dof → α

/-- Robot I/O buffers (`SRobotIO`); `dof_` is the index bound `dof`. -/
structure SRobotIO (α : Type) (dof : Nat) where
  sensors_ : SRobotSensors α dof
  actuators_ : SRobotActuators α dof

/-- One centre-of-mass record of the generalized-coordinate model. -/
structure SCOMInfo where
  name_ : String
  link_dynamic_id_ : Int
  link_ds_ : Option Nat
  deriving DecidableEq

/-- Generalized-coordinate model (`SGcModel`): mass matrix, gravity, COM records. -/
structure SGcModel (α : Type) (dof : Nat) where
  A_ : Matrix (Fin dof) (Fin dof) α
  g_ : Fin dof → α
  mass_ : α
  coms_ : List SCOMInfo

/-- One link of the robot (`SRigidBody`): the fields `init` reads. -/
structure SRigidBody (α : Type) where
  name_ : String
  mass_ : α
  is_root_ : Bool

/-- Modelled from the spec: the parsed robot (`SRobotParsed`), "an ordered tree of
rigid-body link descriptors (name, mass, center-of-mass offset, root flag)";
`robot_br_rep_` lists the links in the order the tree's iterator visits them. -/
structure SRobotParsed (α : Type) where
  robot_br_rep_ : List (SRigidBody α)

/-- Data of the joint-space controller (`SGcController`).  `robot_` is the
pointer to the parsed robot. -/
structure SGcController (α : Type) (dof : Nat) where
  has_been_init_ : Bool
  robot_ : Option (SRobotParsed α)
  des_q_ : Fin dof → α
  des_dq_ : Fin dof → α
  des_ddq_ : Fin dof → α
  kp_ : Fin dof → α
  kv_ : Fin dof → α
  ka_ : Fin dof → α
  ki_ : Fin dof → α
  force_gc_max_ : Fin dof → α
  force_gc_min_ : Fin dof → α
  des_force_gc_ : Fin dof → α
  gc_model_ : SGcModel α dof
  io_data_ : SRobotIO α dof

/-- The dynamics engine as seen through a `CDynamicsBase*`: the answer of
`hasBeenInit()`. -/
structure CDynamicsBase where
  has_been_init_ : Bool
  deriving DecidableEq, Repr

/-- The joint-space controller object: `data_` is the pointer to its data,
`dynamics_` the pointer to the dynamics engine. -/
structure CGcController (α : Type) (dof : Nat) where
  has_been_init_ : Bool
  data_ : Option (SGcController α dof)
  dynamics_ : Option CDynamicsBase

namespace CGcController

variable {α : Type} [LinearOrderedField α] {dof : Nat}

/-- The vector `tmp3` of `computeControlForces` after the two force-limit lines:
the decoupled force that is multiplied by the mass matrix. -/
def computeControlForces_tmp3 (d : SGcController α dof) : Fin dof → α :=
  let tmp1 : Fin dof → α := d.des_q_ - d.io_data_.sensors_.q_
  let tmp1 := cwiseProduct d.kp_ tmp1
  let tmp2 : Fin dof → α := d.des_dq_ - d.io_data_.sensors_.dq_
  let tmp2 := cwiseProduct d.kv_ tmp2
  let tmp3 : Fin dof → α := d.des_ddq_ + tmp2 + tmp1
  let tmp3 := cwiseMin tmp3 d.force_gc_max_
  let tmp3 := cwiseMax tmp3 d.force_gc_min_
  tmp3

/-- `CGcController::computeControlForces`. -/
def computeControlForces (c : CGcController α dof) : Option (Bool × CGcController α dof) :=
  match c.data_ with
  | none => none
  | some d =>
    let tmp3 := computeControlForces_tmp3 d
    let d1 := { d with des_force_gc_ := d.gc_model_.A_.mulVec tmp3 + d.gc_model_.g_ }
    some (true, { c with data_ := some d1 })

/-- The vector `tmp3` of `computePDControlForces` after the two force-limit lines. -/
def computePDControlForces_tmp3 (d : SGcController α dof) : Fin dof → α :=
  let tmp1 : Fin dof → α := d.io_data_.sensors_.q_ - d.des_q_
  let tmp1 := cwiseProduct d.kp_ tmp1
  let tmp2 := cwiseProduct d.kv_ d.io_data_.sensors_.dq_
  let tmp3 : Fin dof → α := -tmp2 - tmp1
  let tmp3 := cwiseMin tmp3 d.force_gc_max_
  let tmp3 := cwiseMax tmp3 d.force_gc_min_
  tmp3

/-- `CGcController::computePDControlForces`. -/
def computePDControlForces (c : CGcController α dof) : Option (Bool × CGcController α dof) :=
  match c.data_ with
  | none => none
  | some d =>
    let tmp3 := computePDControlForces_tmp3 d
    let d1 := { d with des_force_gc_ := d.gc_model_.A_.mulVec tmp3 + d.gc_model_.g_ }
    some (true, { c with data_ := some d1 })

/-- The vector `tmp1` of `computeFloatForces` after the two force-limit lines. -/
def computeFloatForces_tmp1 (d : SGcController α dof) : Fin dof → α :=
  let tmp1 : Fin dof → α := -(cwiseProduct d.kv_ d.io_data_.sensors_.dq_)
  let tmp1 := cwiseMin tmp1 d.force_gc_max_
  let tmp1 := cwiseMax tmp1 d.force_gc_min_
  tmp1

/-- `CGcController::computeFloatForces` (the `DEBUG` printing is left out). -/
def computeFloatForces (c : CGcController α dof) : Option (Bool × CGcController α dof) :=
  match c.data_ with
  | none => none
  | some d =>
    let tmp1 := computeFloatForces_tmp1 d
    let d1 := { d with des_force_gc_ := d.gc_model_.A_.mulVec tmp1 + d.gc_model_.g_ }
    some (true, { c with data_ := some d1 })

/-- `CGcController::reset`. -/
def reset (c : CGcController α dof) : Bool × CGcController α dof :=
  (true, { c with data_ := none, dynamics_ := none, has_been_init_ := false })

/-- The loop `while(itr->is_root_) { ++itr; }` of `init`.  The iterator is the
list of links from its position on; the empty list is the end position, where
reading `itr->is_root_` has no result. -/
def skipRoots : List (SRigidBody α) → Option (List (SRigidBody α))
  | [] => none
  | l :: rest => if l.is_root_ then skipRoots rest else some (l :: rest)

/-- The lockstep `for` loop of `init` over the COM records (`itcom`) and the
links (`itr`); `n` is the number of links, so that `n - length itr` is the
position of `itr`, kept as the link reference `link_ds_`.  The first component of
the result is `false` when the body threw; there is no result when the link
iterator was read at the end position. -/
def init_loop (getIdForLink : String → Int) (n : Nat) :
    List SCOMInfo → List (SRigidBody α) → α →
      Option (Bool × List SCOMInfo × α × List (SRigidBody α))
  | [], itr, mass => some (true, [], mass, itr)
  | com :: coms, itr, mass =>
    match skipRoots itr with
    | none => none
    | some [] => some (false, com :: coms, mass, [])
    | some (l :: rest) =>
      let com1 : SCOMInfo :=
        { com with name_ := l.name_, link_dynamic_id_ := getIdForLink l.name_
                   link_ds_ := some (n - (rest.length + 1)) }
      match init_loop getIdForLink n coms rest (mass + l.mass_) with
      | none => none
      | some (b, coms1, mass1, itr1) => some (b, com1 :: coms1, mass1, itr1)

/-- The loop `while(itr->is_root_) { ++itr; if(itr == itre) break; }` after the
`for` loop of `init`; it is entered only when the iterator is not at the end. -/
def skipRootsGuarded : List (SRigidBody α) → List (SRigidBody α)
  | [] => []
  | l :: rest => if l.is_root_ then skipRootsGuarded rest else l :: rest

/-- The handler of `init`: clear the flag; `init` then returns the flag. -/
def init_catch (c : CGcController α dof) : Bool × CGcController α dof :=
  (false, { c with has_been_init_ := false })

/-- `CGcController::init`; `getIdForLink` is the dynamics engine's link lookup.
The writes into `data_->gc_model_` made before a `throw` stay. -/
def init (getIdForLink : String → Int) (c : CGcController α dof)
    (arg_data : Option (SGcController α dof)) (arg_dynamics : Option CDynamicsBase) :
    Option (Bool × CGcController α dof) :=
  let c0 := (reset c).2
  match arg_data with
  | none => some (init_catch c0)
  | some data =>
    if data.has_been_init_ = false then some (init_catch c0)
    else
      let c1 := { c0 with data_ := some data }
      match arg_dynamics with
      | none => some (init_catch c1)
      | some dyn =>
        if dyn.has_been_init_ = false then some (init_catch c1)
        else
          let c2 := { c1 with dynamics_ := some dyn }
          match data.robot_ with
          | none => none
          | some robot =>
            let links := robot.robot_br_rep_
            match init_loop getIdForLink links.length data.gc_model_.coms_ links 0 with
            | none => none
            | some (completed, coms1, mass1, itr) =>
              let data1 := { data with
                gc_model_ := { data.gc_model_ with mass_ := mass1, coms_ := coms1 } }
              let c3 := { c2 with data_ := some data1 }
              if completed = false then some (init_catch c3)
              else
                match itr with
                | [] => some (true, { c3 with has_been_init_ := true })
                | l :: rest =>
                  match skipRootsGuarded (l :: rest) with
                  | [] => some (true, { c3 with has_been_init_ := true })
                  | _ :: _ => some (init_catch c3)

/-- `CGcController::computeDynamics`; `updateModelMatrices` is the dynamics
engine's update. -/
def computeDynamics
    (updateModelMatrices : SRobotSensors α dof → SGcModel α dof → Bool × SGcModel α dof)
    (c : CGcController α dof) : Option (Bool × CGcController α dof) :=
  match c.dynamics_, c.data_ with
  | some _, some d =>
    let r := updateModelMatrices d.io_data_.sensors_ d.gc_model_
    some (r.1, { c with data_ := some { d with gc_model_ := r.2 } })
  | _, _ => none

/-- The commanded force read back through `getControlForces` from a call's result. -/
def resultForce (r : Option (Bool × CGcController α dof)) : Option (Fin dof → α) :=
  match r with
  | some (_, c) => c.data_.map (fun d => d.des_force_gc_)
  | none => none

end CGcController

/-! ## Data structures of the task controller -/

/-- Task descriptor (`STaskBase`): the fields the task controller reads and writes. -/
structure STaskBase (α : Type) (dof : Nat) where
  name_ : String
  type_task_ : String
  priority_ : Int
  has_been_init_ : Bool
  range_space_ : Matrix (Fin dof) (Fin dof) α
  null_space_ : Matrix (Fin dof) (Fin dof) α
  force_gc_ : Fin dof → α

/-- A task computational object (`CTaskBase`) as the controller sees it through a
`CTaskBase*`: its address, the answer of `hasBeenInit()` and the descriptor
address answered by `getTaskData()`. -/
structure CTaskBase where
  addr_ : Nat
  has_been_init_ : Bool
  data_ : Nat
  deriving DecidableEq, Repr

/-- Modelled from the spec: `sutil::CMappedMultiLevelList<std::string, T>`, whose
source is outside the controller sources: "a mapping from task name to (object,
priority level), organized as an ordered sequence of priority levels each holding
the tasks at that level".  `list_` is the name-keyed sequence walked by
`begin()`/`end()` (each entry with its level), `mlvec_` the per-level vectors. -/
structure CMappedMultiLevelList (T : Type) where
  list_ : List (String × T × Nat)
  mlvec_ : List (List T)

namespace CMappedMultiLevelList

variable {T : Type}

/-- Modelled from the spec: the empty list (also the result of `clear()`). -/
def empty : CMappedMultiLevelList T := { list_ := [], mlvec_ := [] }

/-- Modelled from the spec: `at(name)`, the entry stored under `name`, if any. -/
def at_ (l : CMappedMultiLevelList T) (arg_idx : String) : Option T :=
  (l.list_.find? (fun e => e.1 == arg_idx)).map (fun e => e.2.1)

/-- Modelled from the spec: `create(name, value, level)` "inserts (task, level)
keyed by name (fails if the name already exists)"; levels up to `level` are
created on demand.  A failed call changes nothing. -/
def create (l : CMappedMultiLevelList T) (arg_idx : String) (arg_node2add : T)
    (arg_priority : Nat) : Option (CMappedMultiLevelList T) :=
  match l.at_ arg_idx with
  | some _ => none
  | none =>
    let mlvec := l.mlvec_ ++ List.replicate (arg_priority + 1 - l.mlvec_.length) []
    some { list_ := (arg_idx, arg_node2add, arg_priority) :: l.list_
           mlvec_ := mlvec.set arg_priority (mlvec.getD arg_priority [] ++ [arg_node2add]) }

/-- Modelled from the spec: `getNumPriorityLevels()`. -/
def getNumPriorityLevels (l : CMappedMultiLevelList T) : Nat := l.mlvec_.length

/-- Modelled from the spec: `getSinglePriorityLevel(i)`, null when there is no
level `i`. -/
def getSinglePriorityLevel (l : CMappedMultiLevelList T) (i : Nat) : Option (List T) :=
  l.mlvec_.get? i

/-- Modelled from the spec: `erase(name)` removes the entry stored under `name`
from the sequence and from its level; it fails, changing nothing, when there is
no such entry.  The number of levels stays. -/
def erase [DecidableEq T] (l : CMappedMultiLevelList T) (arg_idx : String) :
    Option (CMappedMultiLevelList T) :=
  match l.list_.find? (fun e => e.1 == arg_idx) with
  | none => none
  | some e =>
    some { list_ := l.list_.filter (fun e1 => !(e1.1 == arg_idx))
           mlvec_ := l.mlvec_.set e.2.2 ((l.mlvec_.getD e.2.2 []).erase e.2.1) }

/-- Modelled from the spec: `*begin()`, the first entry in iteration order. -/
def begin_ (l : CMappedMultiLevelList T) : Option T :=
  l.list_.head?.map (fun e => e.2.1)

end CMappedMultiLevelList

/-- Modelled from the spec: the servo data `SServo` held in the controller data;
only the combined force `force_gc_` is read by the task controller. -/
structure SServo (α : Type) (dof : Nat) where
  force_gc_ : Fin dof → α

/-- Data of the task controller (`STaskController`).  The descriptor list
`tasks_` holds `STaskBase*` values: `none` is a null pointer, `some p` the
descriptor at address `p`. -/
structure STaskController (α : Type) (dof : Nat) where
  has_been_init_ : Bool
  robot_name_ : String
  tasks_ : CMappedMultiLevelList (Option Nat)
  servo_ : SServo α dof
  gc_model_ : SGcModel α dof
  io_data_ : SRobotIO α dof

/-- Modelled from the spec: the `CServo` member; the controller only resets and
initializes it and asks it for the combined force. -/
structure CServo where
  has_been_init_ : Bool
  deriving DecidableEq, Repr

/-- The task controller object (`CTaskController`).  `task_count_` is a counter
whose declaration is not in the two sources; it is an integer without overflow
here, so that `task_count_++` and `task_count_--` are exact inverses. -/
structure CTaskController (α : Type) (dof : Nat) where
  has_been_init_ : Bool
  data_ : Option (STaskController α dof)
  dynamics_ : Option CDynamicsBase
  tasks_ : CMappedMultiLevelList (Option CTaskBase)
  task_count_ : Int
  active_task_ : Option CTaskBase
  servo_ : CServo

/-- A call the controller makes into a collaborator. -/
inductive ExternCall where
  | updateModelMatrices : ExternCall
  | computeModel : Nat → ExternCall
  | computeServo : Nat → ExternCall
  | servoComputeControlForces : ExternCall
  deriving DecidableEq, Repr

/-- What lives outside the controller object: the task descriptors by address,
the next free address for a task object, and the log of collaborator calls. -/
structure World (α : Type) (dof : Nat) where
  task_ds_ : Nat → STaskBase α dof
  next_obj_ : Nat
  calls_ : List ExternCall

/-- The collaborators whose code is outside the controller: the dynamics engine,
the type registry, the task objects and the servo.  Each is an arbitrary
function of what it can read.  `getObjectForType ty` tells whether the type
registry has a factory for `ty`; `task_init ty p` is the value returned by
`init` of a fresh object of type `ty` on the descriptor at `p`. -/
structure Env (α : Type) (dof : Nat) where
  updateModelMatrices : SRobotSensors α dof → SGcModel α dof → Bool × SGcModel α dof
  servo_init : String → Bool
  getObjectForType : String → Bool
  task_init : String → Nat → Bool
  computeModel : CTaskBase → STaskController α dof → (Nat → STaskBase α dof) →
    Bool × (Nat → STaskBase α dof)
  computeServo : CTaskBase → SRobotSensors α dof → (Nat → STaskBase α dof) →
    Bool × (Nat → STaskBase α dof)
  servo_computeControlForces : STaskController α dof → (Nat → STaskBase α dof) →
    Bool × (Fin dof → α)

namespace CTaskController

variable {α : Type} [LinearOrderedField α] {dof : Nat}

/-- `CTaskController::CTaskController()`; the base-class constructor leaves the
controller uninitialized. -/
def new : CTaskController α dof :=
  { has_been_init_ := false, data_ := none, dynamics_ := none
    tasks_ := CMappedMultiLevelList.empty, task_count_ := 0, active_task_ := none
    servo_ := { has_been_init_ := false } }

/-- `CTaskController::reset`. -/
def reset (c : CTaskController α dof) : Bool × CTaskController α dof :=
  (true, { c with data_ := none, dynamics_ := none
                  servo_ := { has_been_init_ := false }
                  tasks_ := CMappedMultiLevelList.empty, task_count_ := 0
                  active_task_ := none })

/-- `CTaskController::addTask`.  Every `throw` happens before the first write,
so the handler returns `false` with the state it started from. -/
def addTask (c : CTaskController α dof) (arg_task_name : String)
    (arg_task : Option CTaskBase) (arg_level : Nat) : Bool × CTaskController α dof :=
  match c.data_ with
  | none => (false, c)
  | some _ =>
    match arg_task with
    | none => (false, c)
    | some t =>
      if arg_level < 0 then (false, c)
      else if t.has_been_init_ = false then (false, c)
      else
        match c.tasks_.create arg_task_name arg_task arg_level with
        | none => (false, c)
        | some tasks =>
          let c1 : CTaskController α dof := { c with tasks_ := tasks }
          let c2 := if c1.task_count_ = 0 then { c1 with active_task_ := arg_task } else c1
          (true, { c2 with task_count_ := c2.task_count_ + 1 })

/-- `CTaskController::getTask`. -/
def getTask (c : CTaskController α dof) (arg_name : String) : Option CTaskBase :=
  match c.tasks_.at_ arg_name with
  | none => none
  | some none => none
  | some (some t) => some t

/-- The body of `CTaskController::removeTask`, with the outcome of the read in
`delete *tmp` (line 231) given.  `tmp` (line 223) is the pointer returned by
`tasks_.at(name)`, into the list element stored under the name, and
`tasks_.erase(name)` (line 227) has removed that element when `*tmp` is read:
with `tmp_readable = false` the read has no result, as every other invalid read;
with `tmp_readable = true` the erased element is taken to be still readable and
the call goes on to its remaining writes.  Both `throw`s happen before the first
write; reading `*(tasks_.begin())` of an empty list has no result. -/
def removeTask_given (tmp_readable : Bool) (c : CTaskController α dof)
    (arg_task_name : String) : Option (Bool × CTaskController α dof) :=
  match c.tasks_.at_ arg_task_name with
  | none => some (false, c)
  | some _ =>
    match c.tasks_.erase arg_task_name with
    | none => some (false, c)
    | some tasks =>
      if tmp_readable then
        let c1 := { c with tasks_ := tasks, task_count_ := c.task_count_ - 1 }
        if c1.task_count_ = 1 then
          match c1.tasks_.begin_ with
          | none => none
          | some first => some (true, { c1 with active_task_ := first })
        else some (true, c1)
      else none

/-- `CTaskController::removeTask` as written: the element `tmp` points into is
erased (line 227) before `delete *tmp` (line 231) reads it, so a call that finds
the name has no result. -/
def removeTask (c : CTaskController α dof) (arg_task_name : String) :
    Option (Bool × CTaskController α dof) :=
  removeTask_given false c arg_task_name

/-- Conversion of the `int` priority to the `sUInt` level parameter of `addTask`. -/
def toUInt (x : Int) : Nat := (x % 4294967296).toNat

/-- Body of the inner loop of `init` for one entry of a level.  The first
component is `false` when the body threw.  The object made by the registry gets
the next free address; after its `init` it answers `hasBeenInit()` with the value
`init` returned and `getTaskData()` with the descriptor it was given. -/
def init_task (env : Env α dof) (c : CTaskController α dof) (w : World α dof)
    (entry : Option Nat) : Bool × CTaskController α dof × World α dof :=
  match entry with
  | none => (false, c, w)
  | some p =>
    let tmp_task_ds := w.task_ds_ p
    let tmp_type := "C" ++ tmp_task_ds.type_task_
    let tmp_task_pri := tmp_task_ds.priority_
    if env.getObjectForType tmp_type = false then (false, c, w)
    else
      let w1 := { w with next_obj_ := w.next_obj_ + 1 }
      let flag := env.task_init tmp_type p
      let tmp_task : CTaskBase := { addr_ := w.next_obj_, has_been_init_ := flag, data_ := p }
      if flag = false then (false, c, w1)
      else
        let r := addTask c tmp_task_ds.name_ (some tmp_task) (toUInt tmp_task_pri)
        if r.1 = false then (false, r.2, w1) else (true, r.2, w1)

/-- Inner loop of `init`: every task of one level, in list order. -/
def init_level (env : Env α dof) :
    List (Option Nat) → CTaskController α dof → World α dof →
      Bool × CTaskController α dof × World α dof
  | [], c, w => (true, c, w)
  | e :: es, c, w =>
    match init_task env c w e with
    | (false, c1, w1) => (false, c1, w1)
    | (true, c1, w1) => init_level env es c1 w1

/-- Outer loop of `init`: every level of `data_->tasks_.mlvec_`. -/
def init_levels (env : Env α dof) :
    List (List (Option Nat)) → CTaskController α dof → World α dof →
      Bool × CTaskController α dof × World α dof
  | [], c, w => (true, c, w)
  | l :: ls, c, w =>
    match init_level env l c w with
    | (false, c1, w1) => (false, c1, w1)
    | (true, c1, w1) => init_levels env ls c1 w1

/-- The handler of `init`: clear the flag; `init` then returns the flag. -/
def init_catch (c : CTaskController α dof) (w : World α dof) :
    Bool × CTaskController α dof × World α dof :=
  (false, { c with has_been_init_ := false }, w)

/-- `CTaskController::init`. -/
def init (env : Env α dof) (c : CTaskController α dof) (w : World α dof)
    (arg_data : Option (STaskController α dof)) (arg_dynamics : Option CDynamicsBase) :
    Bool × CTaskController α dof × World α dof :=
  let c0 := (reset c).2
  match arg_data with
  | none => init_catch c0 w
  | some data =>
    if data.has_been_init_ = false then init_catch c0 w
    else
      let c1 := { c0 with data_ := some data }
      match arg_dynamics with
      | none => init_catch c1 w
      | some dyn =>
        if dyn.has_been_init_ = false then init_catch c1 w
        else
          let c2 := { c1 with dynamics_ := some dyn, has_been_init_ := true }
          let flag := env.servo_init data.robot_name_
          let c3 := { c2 with servo_ := { has_been_init_ := flag } }
          if flag = false then init_catch c3 w
          else
            match init_levels env data.tasks_.mlvec_ c3 w with
            | (false, c4, w4) => init_catch c4 w4
            | (true, c4, w4) => (true, { c4 with has_been_init_ := true }, w4)

/-- Inner loop of the cascade in `computeRangeSpaces`: every descriptor of one
level gets `null_space` as its range space and multiplies its own null space
into `lvl_null_space`. -/
def rangeSpaces_level (null_space : Matrix (Fin dof) (Fin dof) α) :
    List (Option Nat) → Matrix (Fin dof) (Fin dof) α → (Nat → STaskBase α dof) →
      Option (Matrix (Fin dof) (Fin dof) α × (Nat → STaskBase α dof))
  | [], lvl_null_space, mem => some (lvl_null_space, mem)
  | none :: _, _, _ => none
  | some p :: rest, lvl_null_space, mem =>
    let mem1 := Function.update mem p { (mem p) with range_space_ := null_space }
    let lvl_null_space1 := lvl_null_space * (mem1 p).null_space_
    rangeSpaces_level null_space rest lvl_null_space1 mem1

/-- Outer loop of the cascade in `computeRangeSpaces`, over the level indices. -/
def rangeSpaces_levels (data : STaskController α dof) :
    List Nat → Matrix (Fin dof) (Fin dof) α → (Nat → STaskBase α dof) →
      Option (Matrix (Fin dof) (Fin dof) α × (Nat → STaskBase α dof))
  | [], null_space, mem => some (null_space, mem)
  | i :: is, null_space, mem =>
    match data.tasks_.getSinglePriorityLevel i with
    | none => none
    | some taskvec =>
      match rangeSpaces_level null_space taskvec 1 mem with
      | none => none
      | some (lvl_null_space, mem1) =>
        rangeSpaces_levels data is (null_space * lvl_null_space) mem1

/-- `CTaskController::computeRangeSpaces`. -/
def computeRangeSpaces (c : CTaskController α dof) (w : World α dof) :
    Option (Bool × World α dof) :=
  match c.data_ with
  | none => none
  | some data =>
    if c.task_count_ = 1 then
      match c.active_task_ with
      | none => none
      | some t =>
        let tmp := t.data_
        let mem := Function.update w.task_ds_ tmp { (w.task_ds_ tmp) with range_space_ := 1 }
        some (true, { w with task_ds_ := mem })
    else
      let levels := c.tasks_.getNumPriorityLevels
      match rangeSpaces_levels data (List.range levels) 1 w.task_ds_ with
      | none => none
      | some (_, mem) => some (true, { w with task_ds_ := mem })

/-- One `task->computeModel()` call: the task object acts on the descriptors. -/
def callComputeModel (env : Env α dof) (data : STaskController α dof) (t : CTaskBase)
    (w : World α dof) : Bool × World α dof :=
  let r := env.computeModel t data w.task_ds_
  (r.1, { w with task_ds_ := r.2, calls_ := w.calls_ ++ [ExternCall.computeModel t.addr_] })

/-- The multi-task loop of `computeDynamics`: `flag = flag && task->computeModel()`
for every entry of `tasks_`; the call is skipped once `flag` is false. -/
def computeModel_loop (env : Env α dof) (data : STaskController α dof) :
    List (Option CTaskBase) → Bool → World α dof → Option (Bool × World α dof)
  | [], flag, w => some (flag, w)
  | task :: rest, flag, w =>
    if flag then
      match task with
      | none => none
      | some t =>
        let r := callComputeModel env data t w
        computeModel_loop env data rest r.1 r.2
    else computeModel_loop env data rest false w

/-- `CTaskController::computeDynamics`. -/
def computeDynamics (env : Env α dof) (c : CTaskController α dof) (w : World α dof) :
    Option (Bool × CTaskController α dof × World α dof) :=
  match c.dynamics_, c.data_ with
  | some _, some data =>
    let r := env.updateModelMatrices data.io_data_.sensors_ data.gc_model_
    let flag := r.1
    let data1 := { data with gc_model_ := r.2 }
    let c1 := { c with data_ := some data1 }
    let w1 := { w with calls_ := w.calls_ ++ [ExternCall.updateModelMatrices] }
    if c1.task_count_ = 0 then some (false, c1, w1)
    else
      let models : Option (Bool × World α dof) :=
        if c1.task_count_ = 1 then
          if flag then
            match c1.active_task_ with
            | none => none
            | some t => some (callComputeModel env data1 t w1)
          else some (false, w1)
        else computeModel_loop env data1 (c1.tasks_.list_.map (fun e => e.2.1)) flag w1
      match models with
      | none => none
      | some (flag1, w2) =>
        if flag1 then
          match computeRangeSpaces c1 w2 with
          | none => none
          | some (b, w3) => some (b, c1, w3)
        else some (false, c1, w2)
  | _, _ => none

/-- One `task->computeServo(&sensors)` call. -/
def callComputeServo (env : Env α dof) (data : STaskController α dof) (t : CTaskBase)
    (w : World α dof) : Bool × World α dof :=
  let r := env.computeServo t data.io_data_.sensors_ w.task_ds_
  (r.1, { w with task_ds_ := r.2, calls_ := w.calls_ ++ [ExternCall.computeServo t.addr_] })

/-- The step `flag = flag && servo_.computeControlForces()`: the servo is asked
only when `flag` is true, and then writes `data_->servo_.force_gc_`. -/
def callServo (env : Env α dof) (flag : Bool) (data : STaskController α dof)
    (w : World α dof) : Bool × STaskController α dof × World α dof :=
  if flag then
    let r := env.servo_computeControlForces data w.task_ds_
    (r.1, { data with servo_ := { force_gc_ := r.2 } },
      { w with calls_ := w.calls_ ++ [ExternCall.servoComputeControlForces] })
  else (false, data, w)

/-- The multi-task loop of `computeControlForces`:
`flag = flag && task->computeServo(&sensors)` for every entry of `tasks_`. -/
def computeServo_loop (env : Env α dof) (data : STaskController α dof) :
    List (Option CTaskBase) → Bool → World α dof → Option (Bool × World α dof)
  | [], flag, w => some (flag, w)
  | task :: rest, flag, w =>
    if flag then
      match task with
      | none => none
      | some t =>
        let r := callComputeServo env data t w
        computeServo_loop env data rest r.1 r.2
    else computeServo_loop env data rest false w

/-- `CTaskController::computeControlForces`. -/
def computeControlForces (env : Env α dof) (c : CTaskController α dof) (w : World α dof) :
    Option (Bool × CTaskController α dof × World α dof) :=
  match c.data_ with
  | none => none
  | some data =>
    if c.task_count_ = 1 then
      match c.active_task_ with
      | none => none
      | some t =>
        let r := callComputeServo env data t w
        let s := callServo env r.1 data r.2
        let force := (s.2.2.task_ds_ t.data_).force_gc_
        let data1 := { s.2.1 with io_data_ := { s.2.1.io_data_ with
          actuators_ := { force_gc_commanded_ := force } } }
        some (s.1, { c with data_ := some data1 }, s.2.2)
    else
      match computeServo_loop env data (c.tasks_.list_.map (fun e => e.2.1)) true w with
      | none => none
      | some r =>
        let s := callServo env r.1 data r.2
        let data1 := { s.2.1 with io_data_ := { s.2.1.io_data_ with
          actuators_ := { force_gc_commanded_ := s.2.1.servo_.force_gc_ } } }
        some (s.1, { c with data_ := some data1 }, s.2.2)

end CTaskController

/-- The clamp of the specification: `clamp(x) = max(min(x, force_gc_max), force_gc_min)`,
taken componentwise. -/
def clamp {α : Type} [LinearOrderedField α] {dof : Nat}
    (force_gc_min force_gc_max x : Fin dof → α) : Fin dof → α :=
  fun i => max (min (x i) (force_gc_max i)) (force_gc_min i)

/-- The full joint-space law as the specification writes it:
`A * clamp(des_ddq + kv∘(des_dq − dq) + kp∘(des_q − q)) + g`. -/
def fullLaw {α : Type} [LinearOrderedField α] {dof : Nat} (d : SGcController α dof) :
    Fin dof → α :=
  d.gc_model_.A_.mulVec
    (clamp d.force_gc_min_ d.force_gc_max_
      (fun i => d.des_ddq_ i + d.kv_ i * (d.des_dq_ i - d.io_data_.sensors_.dq_ i)
        + d.kp_ i * (d.des_q_ i - d.io_data_.sensors_.q_ i)))
  + d.gc_model_.g_

/-- The PD-only law as the specification writes it:
`A * clamp(−kv∘dq − kp∘(q − des_q)) + g`. -/
def pdLaw {α : Type} [LinearOrderedField α] {dof : Nat} (d : SGcController α dof) :
    Fin dof → α :=
  d.gc_model_.A_.mulVec
    (clamp d.force_gc_min_ d.force_gc_max_
      (fun i => -(d.kv_ i * d.io_data_.sensors_.dq_ i)
        - d.kp_ i * (d.io_data_.sensors_.q_ i - d.des_q_ i)))
  + d.gc_model_.g_

/-- The float law as the specification writes it: `A * clamp(−kv∘dq) + g`. -/
def floatLaw {α : Type} [LinearOrderedField α] {dof : Nat} (d : SGcController α dof) :
    Fin dof → α :=
  d.gc_model_.A_.mulVec
    (clamp d.force_gc_min_ d.force_gc_max_
      (fun i => -(d.kv_ i * d.io_data_.sensors_.dq_ i)))
  + d.gc_model_.g_

/-- The combined null space `L` of one level as the specification writes it:
`Identity(dof) * n_1 * n_2 * ...` over the level's descriptors in stored order. -/
def levelNullSpace {α : Type} [LinearOrderedField α] {dof : Nat}
    (mem : Nat → STaskBase α dof) (lvl : List Nat) : Matrix (Fin dof) (Fin dof) α :=
  lvl.foldl (fun L p => L * (mem p).null_space_) 1

/-- The range space `R_i` of level `i` as the specification writes it:
`R_0 = Identity(dof)` and `R_(i+1) = R_i * L_i`. -/
def cascadeRange {α : Type} [LinearOrderedField α] {dof : Nat}
    (mem : Nat → STaskBase α dof) (levels : List (List Nat)) :
    Nat → Matrix (Fin dof) (Fin dof) α
  | 0 => 1
  | i + 1 => cascadeRange mem levels i * levelNullSpace mem (levels.getD i [])

/-- What the specification asks of one descriptor, given the names of the
descriptors visited before it: the pointer is not null, its type tag has a
registered factory, its task object initializes, and its name is not used by an
earlier descriptor. -/
def descriptorOk {α : Type} {dof : Nat} (env : Env α dof) (mem : Nat → STaskBase α dof)
    (earlier : List String) (entry : Option Nat) : Bool :=
  match entry with
  | none => false
  | some p =>
    env.getObjectForType ("C" ++ (mem p).type_task_)
      && env.task_init ("C" ++ (mem p).type_task_) p
      && decide ((mem p).name_ ∉ earlier)

/-- The name under which a descriptor entry is registered. -/
def entryName {α : Type} {dof : Nat} (mem : Nat → STaskBase α dof) (entry : Option Nat) :
    String :=
  match entry with
  | none => ""
  | some p => (mem p).name_

/-- Every descriptor of the visiting order passes `descriptorOk`, each against
the names of those before it. -/
def descriptorsOk {α : Type} {dof : Nat} (env : Env α dof) (mem : Nat → STaskBase α dof) :
    List String → List (Option Nat) → Bool
  | _, [] => true
  | earlier, e :: es =>
    descriptorOk env mem earlier e
      && descriptorsOk env mem (entryName mem e :: earlier) es

/-- The number of descriptors before the first one that fails `descriptorOk`. -/
def okPrefix {α : Type} {dof : Nat} (env : Env α dof) (mem : Nat → STaskBase α dof) :
    List String → List (Option Nat) → Nat
  | _, [] => 0
  | earlier, e :: es =>
    if descriptorOk env mem earlier e then
      okPrefix env mem (entryName mem e :: earlier) es + 1
    else 0

/-- A two-joint descriptor with the given priority and null space. -/
def taskDs2 (name : String) (pri : Int) (ns : Matrix (Fin 2) (Fin 2) ℚ) : STaskBase ℚ 2 :=
  { name_ := name, type_task_ := "TaskOpPos", priority_ := pri, has_been_init_ := true
    range_space_ := 0, null_space_ := ns, force_gc_ := fun _ => 0 }

/-- Descriptor memory: address 0 holds a level-0 task, address 1 a level-1 task,
every other address a level-1 task that is in no list. -/
def mem2 : Nat → STaskBase ℚ 2 := fun p =>
  if p = 0 then taskDs2 "hand" 0 (Matrix.diagonal (fun i => if i = 0 then 0 else 1))
  else taskDs2 "posture" 1 1

/-- The world before any task object exists. -/
def world0 : World ℚ 2 := { task_ds_ := mem2, next_obj_ := 0, calls_ := [] }

/-- The world after one task object was made. -/
def world1 : World ℚ 2 := { world0 with next_obj_ := 1 }

/-- The world after two task objects were made. -/
def world2 : World ℚ 2 := { world0 with next_obj_ := 2 }

/-- Two-joint robot I/O buffers, all zero. -/
def rio2 : SRobotIO ℚ 2 :=
  { sensors_ := { q_ := fun _ => 0, dq_ := fun _ => 0, ddq_ := fun _ => 0 }
    actuators_ := { force_gc_commanded_ := fun _ => 0 } }

/-- Task-controller data with the descriptor at address 0 on level 0 and the
descriptor at address 1 on level 1. -/
def taskData2 : STaskController ℚ 2 :=
  { has_been_init_ := true, robot_name_ := "bot"
    tasks_ := { list_ := [("posture", some 1, 1), ("hand", some 0, 0)]
                mlvec_ := [[some 0], [some 1]] }
    servo_ := { force_gc_ := fun _ => 0 }
    gc_model_ := { A_ := 1, g_ := fun _ => 0, mass_ := 0, coms_ := [] }
    io_data_ := rio2 }

/-- The task object created for the descriptor at address `p`. -/
def taskObj (p : Nat) : CTaskBase := { addr_ := p, has_been_init_ := true, data_ := p }

/-- A controller holding the two task objects of `taskData2`. -/
def taskCtrl2 : CTaskController ℚ 2 :=
  { has_been_init_ := true, data_ := some taskData2, dynamics_ := some { has_been_init_ := true }
    tasks_ := { list_ := [("posture", some (taskObj 1), 1), ("hand", some (taskObj 0), 0)]
                mlvec_ := [[some (taskObj 0)], [some (taskObj 1)]] }
    task_count_ := 2, active_task_ := some (taskObj 0), servo_ := { has_been_init_ := true } }

/-- Task-controller data with the single descriptor at address 0 on level 0. -/
def taskData1 : STaskController ℚ 2 :=
  { taskData2 with tasks_ := { list_ := [("hand", some 0, 0)], mlvec_ := [[some 0]] } }

/-- A controller holding the single task object of `taskData1`. -/
def taskCtrl1 : CTaskController ℚ 2 :=
  { has_been_init_ := true, data_ := some taskData1, dynamics_ := some { has_been_init_ := true }
    tasks_ := { list_ := [("hand", some (taskObj 0), 0)], mlvec_ := [[some (taskObj 0)]] }
    task_count_ := 1, active_task_ := some (taskObj 0), servo_ := { has_been_init_ := true } }

/-- Collaborators that always succeed and change nothing. -/
def envOk : Env ℚ 2 :=
  { updateModelMatrices := fun _ g => (true, g)
    servo_init := fun _ => true
    getObjectForType := fun _ => true
    task_init := fun _ _ => true
    computeModel := fun _ _ mem => (true, mem)
    computeServo := fun _ _ mem => (true, mem)
    servo_computeControlForces := fun d _ => (true, d.servo_.force_gc_) }

/-- As `envOk`, but the dynamics engine fails to update the model matrices. -/
def envDynFail : Env ℚ 2 := { envOk with updateModelMatrices := fun _ g => (false, g) }

/-- As `envOk`, but every task fails to compute its model. -/
def envModelFail : Env ℚ 2 := { envOk with computeModel := fun _ _ mem => (false, mem) }

/-- Task-controller data whose descriptor list holds one null task pointer. -/
def taskDataNull : STaskController ℚ 2 :=
  { taskData2 with tasks_ := { list_ := [("hand", none, 0)], mlvec_ := [[none]] } }

/-- The number of non-root links of a link sequence, as the specification counts
them. -/
def nonRootCount {α : Type} (links : List (SRigidBody α)) : Nat :=
  (links.filter (fun l => !l.is_root_)).length

/-- A one-joint data block with all gains, targets and sensor values zero, and
the given force bounds. -/
def gcData1 (fmin fmax : ℚ) : SGcController ℚ 1 :=
  { has_been_init_ := true
    robot_ := some { robot_br_rep_ := [] }
    des_q_ := fun _ => 0, des_dq_ := fun _ => 0, des_ddq_ := fun _ => 0
    kp_ := fun _ => 0, kv_ := fun _ => 0, ka_ := fun _ => 0, ki_ := fun _ => 0
    force_gc_max_ := fun _ => fmax, force_gc_min_ := fun _ => fmin
    des_force_gc_ := fun _ => 0
    gc_model_ := { A_ := 1, g_ := fun _ => 0, mass_ := 0, coms_ := [] }
    io_data_ := { sensors_ := { q_ := fun _ => 0, dq_ := fun _ => 0, ddq_ := fun _ => 0 }
                  actuators_ := { force_gc_commanded_ := fun _ => 0 } } }

/-- A robot of two links: the root `base` and the link `link1`. -/
def robot2 : SRobotParsed ℚ :=
  { robot_br_rep_ := [{ name_ := "base", mass_ := 0, is_root_ := true },
                      { name_ := "link1", mass_ := 2, is_root_ := false }] }

/-- A COM record that is not bound to a link yet. -/
def comBlank : SCOMInfo := { name_ := "", link_dynamic_id_ := -1, link_ds_ := none }

/-- One-joint controller data for `robot2` with the given COM records. -/
def gcDataRobot (coms : List SCOMInfo) : SGcController ℚ 1 :=
  { gcData1 (-1) 1 with
    robot_ := some robot2
    gc_model_ := { A_ := 1, g_ := fun _ => 0, mass_ := 5, coms_ := coms } }

/-- A link lookup of the dynamics engine: every link has the id 7. -/
def linkId7 : String → Int := fun _ => 7

/-- A joint-space controller as its constructor leaves it. -/
def gcCtrlNew : CGcController ℚ 1 :=
  { has_been_init_ := false, data_ := none, dynamics_ := none }

/-- The data of the worked example: `dof = 3`, `kp = [10,10,10]`,
`kv = [3,3,3]`, `q = 0`, `des_q = [0.1,0,0]`, `dq = 0`, `des_dq = des_ddq = 0`,
`A = Identity(3)`, `g = 0`, and the given force bounds. -/
def gcData3 (fmin fmax : Fin 3 → ℚ) : SGcController ℚ 3 :=
  { has_been_init_ := true
    robot_ := none
    des_q_ := ![1 / 10, 0, 0], des_dq_ := fun _ => 0, des_ddq_ := fun _ => 0
    kp_ := fun _ => 10, kv_ := fun _ => 3, ka_ := fun _ => 0, ki_ := fun _ => 0
    force_gc_max_ := fmax, force_gc_min_ := fmin
    des_force_gc_ := fun _ => 0
    gc_model_ := { A_ := 1, g_ := fun _ => 0, mass_ := 0, coms_ := [] }
    io_data_ := { sensors_ := { q_ := fun _ => 0, dq_ := fun _ => 0, ddq_ := fun _ => 0 }
                  actuators_ := { force_gc_commanded_ := fun _ => 0 } } }

/-- A joint-space controller bound to `gcData3 fmin fmax`. -/
def gcCtrl3 (fmin fmax : Fin 3 → ℚ) : CGcController ℚ 3 :=
  { has_been_init_ := true, data_ := some (gcData3 fmin fmax)
    dynamics_ := some { has_been_init_ := true } }

/-- The decoupled force of the full law before the force limits, as the
specification writes it: `des_ddq + kv∘(des_dq − dq) + kp∘(des_q − q)`. -/
def fullRaw {α : Type} [LinearOrderedField α] {dof : Nat} (d : SGcController α dof) :
    Fin dof → α :=
  fun i => d.des_ddq_ i + d.kv_ i * (d.des_dq_ i - d.io_data_.sensors_.dq_ i)
    + d.kp_ i * (d.des_q_ i - d.io_data_.sensors_.q_ i)

/-- The decoupled force of the PD-only law before the force limits:
`−kv∘dq − kp∘(q − des_q)`. -/
def pdRaw {α : Type} [LinearOrderedField α] {dof : Nat} (d : SGcController α dof) :
    Fin dof → α :=
  fun i => -(d.kv_ i * d.io_data_.sensors_.dq_ i)
    - d.kp_ i * (d.io_data_.sensors_.q_ i - d.des_q_ i)

/-- The decoupled force of the float law before the force limits: `−kv∘dq`. -/
def floatRaw {α : Type} [LinearOrderedField α] {dof : Nat} (d : SGcController α dof) :
    Fin dof → α :=
  fun i => -(d.kv_ i * d.io_data_.sensors_.dq_ i)

/-- One joint with mass matrix `A = [2]`, gravity `0`, bounds `[-1, 1]`, gain
`kv = 10` and velocity `dq = -1`: a large velocity error. -/
def gcDataA2 : SGcController ℚ 1 :=
  { gcData1 (-1) 1 with
    kv_ := fun _ => 10
    gc_model_ := { A_ := Matrix.diagonal (fun _ => 2), g_ := fun _ => 0, mass_ := 0, coms_ := [] }
    io_data_ := { sensors_ := { q_ := fun _ => 0, dq_ := fun _ => -1, ddq_ := fun _ => 0 }
                  actuators_ := { force_gc_commanded_ := fun _ => 0 } } }

/-- A joint-space controller bound to `gcDataA2`. -/
def gcCtrlA2 : CGcController ℚ 1 :=
  { has_been_init_ := true, data_ := some gcDataA2
    dynamics_ := some { has_been_init_ := true } }

/-- The non-root links of a link sequence, each with its position in the
iteration order (positions counted from `k`). -/
def nonRootLinksFrom {α : Type} (k : Nat) (links : List (SRigidBody α)) :
    List (Nat × SRigidBody α) :=
  (links.enumFrom k).filter (fun e => !(SRigidBody.is_root_ e.2))

/-- The COM record the specification binds to the link `e.2` at position `e.1`:
its name, the dynamics engine's id for that name, and the reference to the link. -/
def boundCom {α : Type} (getIdForLink : String → Int) (e : Nat × SRigidBody α) : SCOMInfo :=
  { name_ := e.2.name_, link_dynamic_id_ := getIdForLink e.2.name_, link_ds_ := some e.1 }

/-- A robot whose root link comes last in the iteration order. -/
def robotRootLast : SRobotParsed ℚ :=
  { robot_br_rep_ := [{ name_ := "link1", mass_ := 2, is_root_ := false },
                      { name_ := "base", mass_ := 0, is_root_ := true }] }

/-- Descriptor memory for three levels on two joints: address 0 (level 0) has the
orthogonal projector onto the direction `(1, 1)` as its null space, address 1
(level 1) the projector onto the first axis, every other address (level 2) the
identity. -/
def mem3L : Nat → STaskBase ℚ 2 := fun p =>
  if p = 0 then taskDs2 "hand" 0 !![1 / 2, 1 / 2; 1 / 2, 1 / 2]
  else if p = 1 then taskDs2 "elbow" 1 (Matrix.diagonal (fun i => if i = 0 then 1 else 0))
  else taskDs2 "posture" 2 1

/-- The world around the three-level configuration. -/
def world3L : World ℚ 2 := { task_ds_ := mem3L, next_obj_ := 3, calls_ := [] }

/-- Task-controller data with the descriptors 0, 1, 2 on the levels 0, 1, 2. -/
def taskData3L : STaskController ℚ 2 :=
  { taskData2 with
    tasks_ := { list_ := [("posture", some 2, 2), ("elbow", some 1, 1), ("hand", some 0, 0)]
                mlvec_ := [[some 0], [some 1], [some 2]] } }

/-- A controller holding the three task objects of `taskData3L`. -/
def taskCtrl3L : CTaskController ℚ 2 :=
  { has_been_init_ := true, data_ := some taskData3L
    dynamics_ := some { has_been_init_ := true }
    tasks_ := { list_ := [("posture", some (taskObj 2), 2), ("elbow", some (taskObj 1), 1),
                          ("hand", some (taskObj 0), 0)]
                mlvec_ := [[some (taskObj 0)], [some (taskObj 1)], [some (taskObj 2)]] }
    task_count_ := 3, active_task_ := some (taskObj 0), servo_ := { has_been_init_ := true } }

/-- Descriptor memory for the three-joint example: address 0 (level 0) has the
null space `diag(0,1,1)`, every other address (level 1) the identity. -/
def mem3d : Nat → STaskBase ℚ 3 := fun p =>
  { name_ := if p = 0 then "hand" else "posture", type_task_ := "TaskOpPos"
    priority_ := if p = 0 then 0 else 1, has_been_init_ := true
    range_space_ := 0
    null_space_ := if p = 0 then Matrix.diagonal (fun i => if i = 0 then 0 else 1) else 1
    force_gc_ := fun _ => 0 }

/-- The world around the three-joint example. -/
def world3d : World ℚ 3 := { task_ds_ := mem3d, next_obj_ := 2, calls_ := [] }

/-- Task-controller data of the three-joint example: descriptor 0 on level 0,
descriptor 1 on level 1. -/
def taskData3d : STaskController ℚ 3 :=
  { has_been_init_ := true, robot_name_ := "bot"
    tasks_ := { list_ := [("posture", some 1, 1), ("hand", some 0, 0)]
                mlvec_ := [[some 0], [some 1]] }
    servo_ := { force_gc_ := fun _ => 0 }
    gc_model_ := { A_ := 1, g_ := fun _ => 0, mass_ := 0, coms_ := [] }
    io_data_ := { sensors_ := { q_ := fun _ => 0, dq_ := fun _ => 0, ddq_ := fun _ => 0 }
                  actuators_ := { force_gc_commanded_ := fun _ => 0 } } }

/-- A controller holding the two task objects of the three-joint example. -/
def taskCtrl3d : CTaskController ℚ 3 :=
  { has_been_init_ := true, data_ := some taskData3d
    dynamics_ := some { has_been_init_ := true }
    tasks_ := { list_ := [("posture", some (taskObj 1), 1), ("hand", some (taskObj 0), 0)]
                mlvec_ := [[some (taskObj 0)], [some (taskObj 1)]] }
    task_count_ := 2, active_task_ := some (taskObj 0), servo_ := { has_been_init_ := true } }

/-- "Every task's `computeModel` returned true", as the specification words it:
the tasks are asked in list order, each on the descriptors as the call before it
left them. -/
def modelsOk {α : Type} {dof : Nat} (env : Env α dof) (data : STaskController α dof) :
    List CTaskBase → (Nat → STaskBase α dof) → Bool
  | [], _ => true
  | t :: ts, mem =>
    (env.computeModel t data mem).1 && modelsOk env data ts (env.computeModel t data mem).2

/-- The descriptors after every task of the list has computed its model, in list
order. -/
def modelsMem {α : Type} {dof : Nat} (env : Env α dof) (data : STaskController α dof) :
    List CTaskBase → (Nat → STaskBase α dof) → (Nat → STaskBase α dof)
  | [], mem => mem
  | t :: ts, mem => modelsMem env data ts (env.computeModel t data mem).2

/-- The tasks that are asked for their model in a multi-task tick whose dynamics
update returned true: in list order, up to and including the first task whose
`computeModel` returns false. -/
def modelsAsked {α : Type} {dof : Nat} (env : Env α dof) (data : STaskController α dof) :
    List CTaskBase → (Nat → STaskBase α dof) → List CTaskBase
  | [], _ => []
  | t :: ts, mem =>
    t :: (if (env.computeModel t data mem).1
          then modelsAsked env data ts (env.computeModel t data mem).2 else [])

/-- The world after the dynamics update and the `computeModel` calls of the tasks
`asked`, in that order, and nothing else. -/
def modelsWorld {α : Type} {dof : Nat} (env : Env α dof) (data : STaskController α dof)
    (asked : List CTaskBase) (w : World α dof) : World α dof :=
  { w with
    task_ds_ := modelsMem env data asked w.task_ds_
    calls_ := (w.calls_ ++ [ExternCall.updateModelMatrices])
      ++ asked.map (fun t => ExternCall.computeModel t.addr_) }

/-- One call of a state-changing method of the task controller, with its
arguments; `init` also carries the collaborators and the world it runs in. -/
inductive Call (α : Type) (dof : Nat) where
  | init (env : Env α dof) (w : World α dof) (arg_data : Option (STaskController α dof))
      (arg_dynamics : Option CDynamicsBase) : Call α dof
  | reset : Call α dof
  | addTask (arg_task_name : String) (arg_task : Option CTaskBase) (arg_level : Nat) :
      Call α dof
  | removeTask (arg_task_name : String) : Call α dof

/-- The controller state after one call, whatever the call returned; `none` when
the call has no result.  For `removeTask` the erased element read by
`delete *tmp` is taken to be still readable, so that the states its writes lead
to are counted as reachable. -/
def callStep {α : Type} {dof : Nat} (c : CTaskController α dof) :
    Call α dof → Option (CTaskController α dof)
  | Call.init env w arg_data arg_dynamics =>
    some (CTaskController.init env c w arg_data arg_dynamics).2.1
  | Call.reset => some (CTaskController.reset c).2
  | Call.addTask name task level => some (CTaskController.addTask c name task level).2
  | Call.removeTask name => (CTaskController.removeTask_given true c name).map (fun r => r.2)

/-- The controller state after a sequence of calls, first call first. -/
def runCalls {α : Type} {dof : Nat} :
    List (Call α dof) → CTaskController α dof → Option (CTaskController α dof)
  | [], c => some c
  | k :: ks, c =>
    match callStep c k with
    | none => none
    | some c1 => runCalls ks c1

/-- The bookkeeping invariant, with what is needed to carry it through a call:
the counter is the number of registered tasks, names are distinct, no registered
pointer is null, and a sole registered task is the active task. -/
def bookkeepingInv {α : Type} {dof : Nat} (c : CTaskController α dof) : Prop :=
  c.task_count_ = (c.tasks_.list_.length : Int)
  ∧ (c.tasks_.list_.map (fun e => e.1)).Nodup
  ∧ (∀ e ∈ c.tasks_.list_, ∃ t, e.2.1 = some t)
  ∧ (c.task_count_ = 1 →
      ∃ n t l, c.tasks_.list_ = [(n, some t, l)] ∧ c.active_task_ = some t)

/-- A joint-space controller bound to `gcData1 fmin fmax`. -/
def gcCtrl1 (fmin fmax : ℚ) : CGcController ℚ 1 :=
  { has_been_init_ := true, data_ := some (gcData1 fmin fmax)
    dynamics_ := some { has_been_init_ := true } }

/-! ## Helper lemmas for the range-space cascade -/

theorem getSinglePriorityLevel_of_levels {α : Type} {dof : Nat} (data : STaskController α dof)
    (levels : List (List Nat)) (hlv : data.tasks_.mlvec_ = levels.map (List.map some))
    (s : Nat) (hs : s < levels.length) :
    data.tasks_.getSinglePriorityLevel s = some ((levels.getD s []).map some) := by
  simp [CMappedMultiLevelList.getSinglePriorityLevel, hlv, List.getD, List.getElem?_eq_getElem hs]

section CascadeLemmas

variable {α : Type} [LinearOrderedField α] {dof : Nat}

theorem foldl_null_space_congr (m1 m2 : Nat → STaskBase α dof)
    (h : ∀ q, (m1 q).null_space_ = (m2 q).null_space_) (lvl : List Nat)
    (L : Matrix (Fin dof) (Fin dof) α) :
    lvl.foldl (fun L p => L * (m1 p).null_space_) L
      = lvl.foldl (fun L p => L * (m2 p).null_space_) L := by
  induction lvl generalizing L with
  | nil => rfl
  | cons p rest ih => simp only [List.foldl_cons, h p, ih]

theorem cascadeRange_congr (m1 m2 : Nat → STaskBase α dof)
    (h : ∀ q, (m1 q).null_space_ = (m2 q).null_space_) (levels : List (List Nat)) (i : Nat) :
    cascadeRange m1 levels i = cascadeRange m2 levels i := by
  induction i with
  | zero => rfl
  | succ i ih =>
    simp only [cascadeRange, levelNullSpace, ih, foldl_null_space_congr m1 m2 h]

/-- The inner loop on a level without null entries: it returns the fold of the
null spaces, writes `null_space` into the range space of every listed descriptor
and touches nothing else. -/
theorem rangeSpaces_level_spec (ns : Matrix (Fin dof) (Fin dof) α) (lvl : List Nat) :
    ∀ (L : Matrix (Fin dof) (Fin dof) α) (mem : Nat → STaskBase α dof),
    ∃ mem1, CTaskController.rangeSpaces_level ns (lvl.map some) L mem
        = some (lvl.foldl (fun L p => L * (mem p).null_space_) L, mem1)
      ∧ (∀ q, q ∈ lvl → (mem1 q).range_space_ = ns)
      ∧ (∀ q, q ∉ lvl → mem1 q = mem q)
      ∧ (∀ q, (mem1 q).null_space_ = (mem q).null_space_) := by
  induction lvl with
  | nil =>
    intro L mem
    exact ⟨mem, rfl, by simp, by simp, by simp⟩
  | cons p rest ih =>
    intro L mem
    have hns : ∀ q, (Function.update mem p { (mem p) with range_space_ := ns } q).null_space_
        = (mem q).null_space_ := by
      intro q
      by_cases hq : q = p
      · subst hq; simp
      · simp [Function.update_noteq hq]
    obtain ⟨mem1, h1, h2, h3, h4⟩ := ih
      (L * (Function.update mem p { (mem p) with range_space_ := ns } p).null_space_)
      (Function.update mem p { (mem p) with range_space_ := ns })
    refine ⟨mem1, ?_, ?_, ?_, ?_⟩
    · simp only [List.map_cons, CTaskController.rangeSpaces_level, h1, List.foldl_cons]
      rw [foldl_null_space_congr _ mem hns, hns p]
    · intro q hq
      by_cases hr : q ∈ rest
      · exact h2 q hr
      · have hqp : q = p := by
          rcases List.mem_cons.mp hq with h | h
          · exact h
          · exact absurd h hr
        rw [h3 q hr, hqp]
        simp
    · intro q hq
      have hqp : q ≠ p := fun h => hq (h ▸ List.mem_cons_self _ _)
      have hr : q ∉ rest := fun h => hq (List.mem_cons_of_mem _ h)
      rw [h3 q hr, Function.update_noteq hqp]
    · intro q
      rw [h4 q, hns q]

/-- The outer loop started at level `s` with the accumulated null space `R_s`:
it ends with `R_(s+n)`, and a descriptor of level `i` that is in no later level
holds `R_i` as its range space. -/
theorem rangeSpaces_levels_spec (data : STaskController α dof) (levels : List (List Nat))
    (hlv : data.tasks_.mlvec_ = levels.map (List.map some)) (mem0 : Nat → STaskBase α dof) :
    ∀ (n s : Nat) (mem : Nat → STaskBase α dof), s + n ≤ levels.length →
      (∀ q, (mem q).null_space_ = (mem0 q).null_space_) →
      ∃ mem1, CTaskController.rangeSpaces_levels data (List.range' s n)
            (cascadeRange mem0 levels s) mem
          = some (cascadeRange mem0 levels (s + n), mem1)
        ∧ (∀ q, (mem1 q).null_space_ = (mem0 q).null_space_)
        ∧ (∀ q, (∀ i, s ≤ i → i < s + n → q ∉ levels.getD i []) → mem1 q = mem q)
        ∧ (∀ i, s ≤ i → i < s + n → ∀ q, q ∈ levels.getD i [] →
            (∀ j, i < j → j < s + n → q ∉ levels.getD j []) →
            (mem1 q).range_space_ = cascadeRange mem0 levels i) := by
  intro n
  induction n with
  | zero =>
    intro s mem _ hmem
    refine ⟨mem, rfl, hmem, fun _ _ => rfl, ?_⟩
    intro i h1 h2
    omega
  | succ n ih =>
    intro s mem hle hmem
    have hs : s < levels.length := by omega
    obtain ⟨mema, ha1, ha2, ha3, ha4⟩ :=
      rangeSpaces_level_spec (cascadeRange mem0 levels s) (levels.getD s []) 1 mem
    have hmema : ∀ q, (mema q).null_space_ = (mem0 q).null_space_ := fun q => by
      rw [ha4 q, hmem q]
    obtain ⟨mem1, hb1, hb2, hb3, hb4⟩ := ih (s + 1) mema (by omega) hmema
    have hfold : List.foldl (fun L p => L * (mem p).null_space_) 1 (levels.getD s [])
        = levelNullSpace mem0 (levels.getD s []) := by
      unfold levelNullSpace
      exact foldl_null_space_congr mem mem0 hmem _ _
    refine ⟨mem1, ?_, hb2, ?_, ?_⟩
    · simp only [List.range', CTaskController.rangeSpaces_levels,
        getSinglePriorityLevel_of_levels data levels hlv s hs, ha1, hfold]
      have hR : cascadeRange mem0 levels s * levelNullSpace mem0 (levels.getD s [])
          = cascadeRange mem0 levels (s + 1) := rfl
      rw [hR, hb1]
      have : s + 1 + n = s + (n + 1) := by omega
      rw [this]
    · intro q hq
      rw [hb3 q (fun i h1 h2 => hq i (by omega) (by omega))]
      exact ha3 q (hq s (le_refl s) (by omega))
    · intro i h1 h2 q hqi hlater
      by_cases his : i = s
      · subst his
        rw [hb3 q (fun j h3 h4 => hlater j (by omega) (by omega))]
        exact ha2 q hqi
      · exact hb4 i (by omega) (by omega) q hqi
          (fun j h3 h4 => hlater j h3 (by omega))

end CascadeLemmas

/-! ## Task controller: range spaces -/

section RangeSpaces

variable {α : Type} [LinearOrderedField α] {dof : Nat}

/-- C1. Multi-task range-space cascade: when `task_count_` is not 1, the
descriptor list has the levels `0..k-1` of the task list, its entries are the
descriptors `levels` (none of them null) and no descriptor is filed under two
levels, `computeRangeSpaces` returns true and every descriptor of level `i` holds
`R_i` as its range space, where `R_0 = Identity` and `R_(i+1) = R_i * L_i` with
`L_i = Identity * n_1 * n_2 * ...` over the null spaces of level `i` in stored
order; level 0 holds the identity; null spaces and unlisted descriptors are
untouched. -/
theorem computeRangeSpaces_cascade (c : CTaskController α dof) (w : World α dof)
    (data : STaskController α dof) (levels : List (List Nat))
    (hd : c.data_ = some data) (hcount : c.task_count_ ≠ 1)
    (hk : c.tasks_.getNumPriorityLevels = data.tasks_.getNumPriorityLevels)
    (hlv : data.tasks_.mlvec_ = levels.map (List.map some))
    (hone : ∀ i j p, p ∈ levels.getD i [] → p ∈ levels.getD j [] → i = j) :
    ∃ w1, CTaskController.computeRangeSpaces c w = some (true, w1)
      ∧ (∀ i p, p ∈ levels.getD i [] →
          (w1.task_ds_ p).range_space_ = cascadeRange w.task_ds_ levels i)
      ∧ (∀ p, p ∈ levels.getD 0 [] → (w1.task_ds_ p).range_space_ = 1)
      ∧ (∀ p, (w1.task_ds_ p).null_space_ = (w.task_ds_ p).null_space_)
      ∧ (∀ p, (∀ i, p ∉ levels.getD i []) → w1.task_ds_ p = w.task_ds_ p)
      ∧ w1.calls_ = w.calls_ ∧ w1.next_obj_ = w.next_obj_ := by
  have hlen : c.tasks_.getNumPriorityLevels = levels.length := by
    rw [hk]
    simp [CMappedMultiLevelList.getNumPriorityLevels, hlv]
  obtain ⟨mem1, h1, h2, h3, h4⟩ :=
    rangeSpaces_levels_spec data levels hlv w.task_ds_ levels.length 0 w.task_ds_
      (by omega) (fun _ => rfl)
  have hrange : ∀ i p, p ∈ levels.getD i [] →
      (mem1 p).range_space_ = cascadeRange w.task_ds_ levels i := by
    intro i p hp
    have hi : i < levels.length := by
      by_contra hge
      have hnil : levels.getD i [] = [] := by
        simp [List.getD, List.getElem?_eq_none (Nat.le_of_not_lt hge)]
      rw [hnil] at hp
      exact List.not_mem_nil _ hp
    refine h4 i (Nat.zero_le i) (by omega) p hp ?_
    intro j hij _ hpj
    have := hone i j p hp hpj
    omega
  refine ⟨{ w with task_ds_ := mem1 }, ?_, hrange, ?_, h2, ?_, rfl, rfl⟩
  · simp only [CTaskController.computeRangeSpaces, hd, if_neg hcount, hlen,
      List.range_eq_range']
    have h0 : cascadeRange w.task_ds_ levels 0 = 1 := rfl
    rw [h0] at h1
    rw [h1]
  · intro p hp
    exact hrange 0 p hp
  · intro p hp
    exact h3 p (fun i _ _ => hp i)

/-- C1 at the concrete two-level configuration `taskCtrl2`. -/
theorem computeRangeSpaces_cascade_witness :
    ∃ w1, CTaskController.computeRangeSpaces taskCtrl2 world2 = some (true, w1)
      ∧ (∀ i p, p ∈ [[0], [1]].getD i [] →
          (w1.task_ds_ p).range_space_ = cascadeRange world2.task_ds_ [[0], [1]] i)
      ∧ (∀ p, p ∈ [[0], [1]].getD 0 [] → (w1.task_ds_ p).range_space_ = 1)
      ∧ (∀ p, (w1.task_ds_ p).null_space_ = (world2.task_ds_ p).null_space_)
      ∧ (∀ p, (∀ i, p ∉ [[0], [1]].getD i []) → w1.task_ds_ p = world2.task_ds_ p)
      ∧ w1.calls_ = world2.calls_ ∧ w1.next_obj_ = world2.next_obj_ :=
  computeRangeSpaces_cascade taskCtrl2 world2 taskData2 [[0], [1]] rfl (by decide) rfl rfl
    (by
      intro i j p hi hj
      match i, j with
      | 0, 0 => rfl
      | 1, 1 => rfl
      | 0, 1 => simp [List.getD] at hi hj; omega
      | 1, 0 => simp [List.getD] at hi hj; omega
      | 0, j + 2 => simp [List.getD] at hj
      | 1, j + 2 => simp [List.getD] at hj
      | i + 2, _ => simp [List.getD] at hi)

/-- C2. Single-task fast path: when `task_count_` is 1 (data and active task
bound), `computeRangeSpaces` returns true and the active task's descriptor holds
the identity as its range space, whatever it held before and whatever its
priority or null space; nothing else changes. -/
theorem computeRangeSpaces_single_task (c : CTaskController α dof) (w : World α dof)
    (data : STaskController α dof) (t : CTaskBase)
    (hd : c.data_ = some data) (ha : c.active_task_ = some t) (h1 : c.task_count_ = 1) :
    ∃ w1, CTaskController.computeRangeSpaces c w = some (true, w1)
      ∧ (w1.task_ds_ t.data_).range_space_ = 1
      ∧ (w1.task_ds_ t.data_).null_space_ = (w.task_ds_ t.data_).null_space_
      ∧ (w1.task_ds_ t.data_).priority_ = (w.task_ds_ t.data_).priority_
      ∧ (∀ p, p ≠ t.data_ → w1.task_ds_ p = w.task_ds_ p)
      ∧ w1.calls_ = w.calls_ ∧ w1.next_obj_ = w.next_obj_ := by
  refine ⟨{ w with task_ds_ := (Function.update w.task_ds_ t.data_
      { (w.task_ds_ t.data_) with range_space_ := 1 }) }, ?_, ?_, ?_, ?_, ?_, ?_, ?_⟩
  · simp only [CTaskController.computeRangeSpaces, hd, ha, h1, if_true]
  · simp
  · simp
  · simp
  · intro p hp
    simp [Function.update_noteq hp]
  · rfl
  · rfl

/-- C2 at the concrete single-task configuration `taskCtrl1`. -/
theorem computeRangeSpaces_single_task_witness :
    ∃ w1, CTaskController.computeRangeSpaces taskCtrl1 world2 = some (true, w1)
      ∧ (w1.task_ds_ (taskObj 0).data_).range_space_ = 1
      ∧ (w1.task_ds_ (taskObj 0).data_).null_space_
          = (world2.task_ds_ (taskObj 0).data_).null_space_
      ∧ (w1.task_ds_ (taskObj 0).data_).priority_
          = (world2.task_ds_ (taskObj 0).data_).priority_
      ∧ (∀ p, p ≠ (taskObj 0).data_ → w1.task_ds_ p = world2.task_ds_ p)
      ∧ w1.calls_ = world2.calls_ ∧ w1.next_obj_ = world2.next_obj_ :=
  computeRangeSpaces_single_task taskCtrl1 world2 taskData1 (taskObj 0) rfl rfl rfl

end RangeSpaces

/-! ## Task controller: the per-tick model update -/

section Dynamics

variable {α : Type} [LinearOrderedField α] {dof : Nat}

/-- The single-task configuration `taskCtrl1` is what `init` builds from
`taskData1`, and the two-task configuration `taskCtrl2` what it builds from
`taskData2`. -/
theorem init_builds_taskCtrl :
    CTaskController.init envOk CTaskController.new world0 (some taskData1)
        (some { has_been_init_ := true }) = (true, taskCtrl1, world1)
    ∧ CTaskController.init envOk CTaskController.new world0 (some taskData2)
        (some { has_been_init_ := true }) = (true, taskCtrl2, world2) :=
  ⟨rfl, rfl⟩

/-- C3, as stated, fails. `taskCtrl1` is the state `init` builds from a list of
one task, whose range space is the zero matrix.  A tick in which the dynamics
engine fails and a tick in which the task's `computeModel` fails both return false
without running `computeRangeSpaces`: afterwards the task's range space is still
the zero matrix, which is not the identity. -/
theorem computeDynamics_failed_tick_keeps_range_space :
    CTaskController.init envOk CTaskController.new world0 (some taskData1)
        (some { has_been_init_ := true }) = (true, taskCtrl1, world1)
    ∧ (CTaskController.computeDynamics envDynFail taskCtrl1 world1).map
        (fun r => (r.1, (r.2.2.task_ds_ (taskObj 0).data_).range_space_)) = some (false, 0)
    ∧ (CTaskController.computeDynamics envModelFail taskCtrl1 world1).map
        (fun r => (r.1, (r.2.2.task_ds_ (taskObj 0).data_).range_space_)) = some (false, 0)
    ∧ (0 : Matrix (Fin 2) (Fin 2) ℚ) ≠ 1 := by
  refine ⟨rfl, rfl, rfl, ?_⟩
  intro h
  have h00 := congrFun (congrFun h 0) 0
  simp at h00

/-- C3, amended. In a state with exactly one registered task `t` (one entry in
`tasks_`, `task_count_ = 1`, `active_task_` pointing at it), a call of
`computeDynamics` in which the dynamics-engine update and the task's
`computeModel` both return true returns true, and afterwards the task's range
space is the identity. -/
theorem computeDynamics_single_task_identity (env : Env α dof) (c : CTaskController α dof)
    (w : World α dof) (data : STaskController α dof) (dyn : CDynamicsBase) (t : CTaskBase)
    (name : String) (lvl : Nat)
    (hd : c.data_ = some data) (hdyn : c.dynamics_ = some dyn)
    (hreg : c.tasks_.list_ = [(name, some t, lvl)]) (hcount : c.task_count_ = 1)
    (ha : c.active_task_ = some t)
    (hupd : (env.updateModelMatrices data.io_data_.sensors_ data.gc_model_).1 = true)
    (hmodel : (env.computeModel t
        { data with
          gc_model_ := (env.updateModelMatrices data.io_data_.sensors_ data.gc_model_).2 }
        w.task_ds_).1 = true) :
    ∃ c1 w1, CTaskController.computeDynamics env c w = some (true, c1, w1)
      ∧ (w1.task_ds_ t.data_).range_space_ = 1
      ∧ c1.tasks_.list_ = [(name, some t, lvl)] ∧ c1.task_count_ = 1
      ∧ c1.active_task_ = some t := by
  refine ⟨{ c with data_ := some { data with
      gc_model_ := (env.updateModelMatrices data.io_data_.sensors_ data.gc_model_).2 } },
    { w with
      task_ds_ := (Function.update
        (env.computeModel t { data with
          gc_model_ := (env.updateModelMatrices data.io_data_.sensors_ data.gc_model_).2 }
          w.task_ds_).2 t.data_
        { ((env.computeModel t { data with
          gc_model_ := (env.updateModelMatrices data.io_data_.sensors_ data.gc_model_).2 }
          w.task_ds_).2 t.data_) with range_space_ := 1 })
      calls_ := (w.calls_ ++ [ExternCall.updateModelMatrices]
        ++ [ExternCall.computeModel t.addr_]) }, ?_, ?_, hreg, hcount, ha⟩
  · simp only [CTaskController.computeDynamics, hd, hdyn, hcount, ha, hupd,
      CTaskController.callComputeModel, hmodel, CTaskController.computeRangeSpaces]
    simp
  · simp

/-- C3, amended, at the concrete single-task configuration `taskCtrl1`. -/
theorem computeDynamics_single_task_identity_witness :
    ∃ c1 w1, CTaskController.computeDynamics envOk taskCtrl1 world1 = some (true, c1, w1)
      ∧ (w1.task_ds_ (taskObj 0).data_).range_space_ = 1
      ∧ c1.tasks_.list_ = [("hand", some (taskObj 0), 0)] ∧ c1.task_count_ = 1
      ∧ c1.active_task_ = some (taskObj 0) :=
  computeDynamics_single_task_identity envOk taskCtrl1 world1 taskData1
    { has_been_init_ := true } (taskObj 0) "hand" 0 rfl rfl rfl rfl rfl rfl rfl

end Dynamics

/-! ## Task controller: adding tasks -/

theorem at_create_self {T : Type} (l l1 : CMappedMultiLevelList T) (name : String) (x : T)
    (lvl : Nat) (h : l.create name x lvl = some l1) : l1.at_ name = some x := by
  unfold CMappedMultiLevelList.create at h
  split at h
  · exact absurd h (by simp)
  · simp only [Option.some.injEq] at h
    subst h
    simp [CMappedMultiLevelList.at_]

theorem at_create_other {T : Type} (l l1 : CMappedMultiLevelList T) (name n : String) (x : T)
    (lvl : Nat) (h : l.create name x lvl = some l1) (hn : n ≠ name) : l1.at_ n = l.at_ n := by
  unfold CMappedMultiLevelList.create at h
  split at h
  · exact absurd h (by simp)
  · simp only [Option.some.injEq] at h
    subst h
    have hne : (name == n) = false := by
      simpa using fun h => hn h.symm
    simp [CMappedMultiLevelList.at_, List.find?, hne]

theorem create_isSome_of_fresh {T : Type} (l : CMappedMultiLevelList T) (name : String) (x : T)
    (lvl : Nat) (h : l.at_ name = none) : ∃ l1, l.create name x lvl = some l1 := by
  unfold CMappedMultiLevelList.create
  rw [h]
  exact ⟨_, rfl⟩

section AddTask

variable {α : Type} {dof : Nat}

/-- C8, the failing input evaluated. `init` on data whose descriptor list holds a
null task pointer returns false and leaves `has_been_init_` false but `data_`
bound; `addTask` of an initialized task then returns true and registers it. -/
theorem addTask_accepted_after_failed_init :
    (CTaskController.init envOk CTaskController.new world0 (some taskDataNull)
        (some { has_been_init_ := true })).1 = false
    ∧ (CTaskController.init envOk CTaskController.new world0 (some taskDataNull)
        (some { has_been_init_ := true })).2.1.has_been_init_ = false
    ∧ (CTaskController.init envOk CTaskController.new world0 (some taskDataNull)
        (some { has_been_init_ := true })).2.1.task_count_ = 0
    ∧ (CTaskController.addTask
        (CTaskController.init envOk CTaskController.new world0 (some taskDataNull)
          (some { has_been_init_ := true })).2.1 "hand" (some (taskObj 0)) 0).1 = true
    ∧ (CTaskController.addTask
        (CTaskController.init envOk CTaskController.new world0 (some taskDataNull)
          (some { has_been_init_ := true })).2.1 "hand" (some (taskObj 0)) 0).2.task_count_ = 1
    ∧ CTaskController.getTask (CTaskController.addTask
        (CTaskController.init envOk CTaskController.new world0 (some taskDataNull)
          (some { has_been_init_ := true })).2.1 "hand" (some (taskObj 0)) 0).2 "hand"
        = some (taskObj 0) := by
  refine ⟨rfl, rfl, rfl, rfl, rfl, ?_⟩
  decide

/-- C9. `addTask` rejection is atomic: in every controller state, when the task
pointer is null, or the task reports `hasBeenInit() == false`, or an entry is
already registered under the name, `addTask` returns false and the controller
(task count, registered tasks, active task and every other field) is unchanged. -/
theorem addTask_rejection_atomic (c : CTaskController α dof) (name : String)
    (arg_task : Option CTaskBase) (lvl : Nat)
    (h : arg_task = none ∨ (∃ t, arg_task = some t ∧ t.has_been_init_ = false)
      ∨ (c.tasks_.at_ name).isSome = true) :
    CTaskController.addTask c name arg_task lvl = (false, c) := by
  unfold CTaskController.addTask
  cases hd : c.data_ with
  | none => rfl
  | some data =>
    cases ht : arg_task with
    | none => rfl
    | some t =>
      simp only [Nat.not_lt_zero, if_false]
      by_cases hi : t.has_been_init_ = false
      · simp [hi]
      · simp only [hi, if_false]
        rcases h with h | ⟨t1, h1, h2⟩ | h
        · rw [ht] at h; exact absurd h (by simp)
        · rw [ht] at h1
          simp only [Option.some.injEq] at h1
          subst h1
          exact absurd h2 hi
        · obtain ⟨x, hx⟩ := Option.isSome_iff_exists.mp h
          simp [CMappedMultiLevelList.create, hx]

/-- C9 at the concrete controller `taskCtrl1`: a second task under the name
`hand`. -/
theorem addTask_rejection_atomic_witness :
    ((some (taskObj 7) : Option CTaskBase) = none
      ∨ (∃ t, some (taskObj 7) = some t ∧ t.has_been_init_ = false)
      ∨ (taskCtrl1.tasks_.at_ "hand").isSome = true)
    ∧ CTaskController.addTask taskCtrl1 "hand" (some (taskObj 7)) 0 = (false, taskCtrl1) :=
  ⟨Or.inr (Or.inr (by decide)),
    addTask_rejection_atomic taskCtrl1 "hand" (some (taskObj 7)) 0 (Or.inr (Or.inr (by decide)))⟩

/-- C10. `addTask` success: in a controller bound to its data, for an initialized
task and a name with no entry yet, `addTask` returns true, the task count grows by
exactly one, `getTask name` returns that task, every name that resolved to a task
before still resolves to the same task, and the active task is the new task if
the count was 0 and is unchanged otherwise. -/
theorem addTask_success (c : CTaskController α dof) (data : STaskController α dof)
    (name : String) (t : CTaskBase) (lvl : Nat)
    (hd : c.data_ = some data) (hinit : t.has_been_init_ = true)
    (hnew : c.tasks_.at_ name = none) :
    ∃ c1, CTaskController.addTask c name (some t) lvl = (true, c1)
      ∧ c1.task_count_ = c.task_count_ + 1
      ∧ CTaskController.getTask c1 name = some t
      ∧ (∀ n t0, CTaskController.getTask c n = some t0 →
          CTaskController.getTask c1 n = some t0)
      ∧ c1.active_task_ = (if c.task_count_ = 0 then some t else c.active_task_)
      ∧ c1.data_ = c.data_ ∧ c1.has_been_init_ = c.has_been_init_ := by
  obtain ⟨l1, hl1⟩ := create_isSome_of_fresh c.tasks_ name (some t) lvl hnew
  have hself := at_create_self c.tasks_ l1 name (some t) lvl hl1
  refine ⟨{ (if c.task_count_ = 0 then { c with tasks_ := l1, active_task_ := some t }
      else { c with tasks_ := l1 }) with task_count_ := c.task_count_ + 1 }, ?_, ?_, ?_, ?_, ?_, ?_, ?_⟩
  · simp only [CTaskController.addTask, hd, hinit, hl1, Nat.not_lt_zero, if_false]
    by_cases h0 : c.task_count_ = 0 <;> simp [h0]
  · by_cases h0 : c.task_count_ = 0 <;> simp [h0]
  · by_cases h0 : c.task_count_ = 0 <;> simp [CTaskController.getTask, h0, hself]
  · intro n t0 hn
    have hne : n ≠ name := by
      intro h
      subst h
      simp [CTaskController.getTask, hnew] at hn
    have hother := at_create_other c.tasks_ l1 name n (some t) lvl hl1 hne
    by_cases h0 : c.task_count_ = 0
    · simpa [CTaskController.getTask, h0, hother] using hn
    · simpa [CTaskController.getTask, h0, hother] using hn
  · by_cases h0 : c.task_count_ = 0 <;> simp [h0]
  · by_cases h0 : c.task_count_ = 0 <;> simp [h0, hd]
  · by_cases h0 : c.task_count_ = 0 <;> simp [h0]

/-- C10 at the concrete controller `taskCtrl1`: a second task named `posture`. -/
theorem addTask_success_witness :
    ∃ c1, CTaskController.addTask taskCtrl1 "posture" (some (taskObj 1)) 1 = (true, c1)
      ∧ c1.task_count_ = taskCtrl1.task_count_ + 1
      ∧ CTaskController.getTask c1 "posture" = some (taskObj 1)
      ∧ (∀ n t0, CTaskController.getTask taskCtrl1 n = some t0 →
          CTaskController.getTask c1 n = some t0)
      ∧ c1.active_task_
          = (if taskCtrl1.task_count_ = 0 then some (taskObj 1) else taskCtrl1.active_task_)
      ∧ c1.data_ = taskCtrl1.data_ ∧ c1.has_been_init_ = taskCtrl1.has_been_init_ :=
  addTask_success taskCtrl1 taskData1 "posture" (taskObj 1) 1 rfl rfl (by decide)

end AddTask

/-! ## Joint-space controller: the three control laws -/

section GcLaws

variable {α : Type} [LinearOrderedField α] {dof : Nat}

/-- C4. Full joint-space law: with the data pointer bound, `computeControlForces`
returns true and writes `A * clamp(des_ddq + kv∘(des_dq − dq) + kp∘(des_q − q)) + g`
into `des_force_gc_`, leaving every other field as it was. -/
theorem computeControlForces_full_law (c : CGcController α dof) (d : SGcController α dof)
    (h : c.data_ = some d) :
    CGcController.computeControlForces c
      = some (true, { c with data_ := some { d with des_force_gc_ := fullLaw d } }) := by
  simp only [CGcController.computeControlForces, h]
  rfl

/-- C4 at a concrete one-joint controller. -/
theorem computeControlForces_full_law_witness :
    (gcCtrl1 (-1) 1).data_ = some (gcData1 (-1) 1) ∧
    CGcController.computeControlForces (gcCtrl1 (-1) 1)
      = some (true, { gcCtrl1 (-1) 1 with
          data_ := some { gcData1 (-1) 1 with des_force_gc_ := fullLaw (gcData1 (-1) 1) } }) :=
  ⟨rfl, computeControlForces_full_law (gcCtrl1 (-1) 1) (gcData1 (-1) 1) rfl⟩

/-- C5. PD-only law: with the data pointer bound, `computePDControlForces` returns
true and writes `A * clamp(−kv∘dq − kp∘(q − des_q)) + g` into `des_force_gc_`; the
force written is the same for every value of `des_dq_` and `des_ddq_`. -/
theorem computePDControlForces_pd_law (c : CGcController α dof) (d : SGcController α dof)
    (h : c.data_ = some d) :
    CGcController.computePDControlForces c
        = some (true, { c with data_ := some { d with des_force_gc_ := pdLaw d } })
    ∧ ∀ des_dq des_ddq : Fin dof → α,
        CGcController.resultForce (CGcController.computePDControlForces
          { c with data_ := some { d with des_dq_ := des_dq, des_ddq_ := des_ddq } })
        = CGcController.resultForce (CGcController.computePDControlForces c) := by
  constructor
  · simp only [CGcController.computePDControlForces, h]
    rfl
  · intro des_dq des_ddq
    simp only [CGcController.computePDControlForces, h]
    rfl

/-- C5 at a concrete one-joint controller. -/
theorem computePDControlForces_pd_law_witness :
    (gcCtrl1 (-1) 1).data_ = some (gcData1 (-1) 1) ∧
    (CGcController.computePDControlForces (gcCtrl1 (-1) 1)
        = some (true, { gcCtrl1 (-1) 1 with
            data_ := some { gcData1 (-1) 1 with des_force_gc_ := pdLaw (gcData1 (-1) 1) } })
    ∧ ∀ des_dq des_ddq : Fin 1 → ℚ,
        CGcController.resultForce (CGcController.computePDControlForces
          { gcCtrl1 (-1) 1 with
            data_ := some { gcData1 (-1) 1 with des_dq_ := des_dq, des_ddq_ := des_ddq } })
        = CGcController.resultForce (CGcController.computePDControlForces (gcCtrl1 (-1) 1))) :=
  ⟨rfl, computePDControlForces_pd_law (gcCtrl1 (-1) 1) (gcData1 (-1) 1) rfl⟩

/-- C6. Float law: with the data pointer bound, `computeFloatForces` returns true
and writes `A * clamp(−kv∘dq) + g` into `des_force_gc_`; the force written is the
same for every value of `q`, `des_q_`, `kp_`, `des_dq_` and `des_ddq_`. -/
theorem computeFloatForces_float_law (c : CGcController α dof) (d : SGcController α dof)
    (h : c.data_ = some d) :
    CGcController.computeFloatForces c
        = some (true, { c with data_ := some { d with des_force_gc_ := floatLaw d } })
    ∧ ∀ q des_q kp des_dq des_ddq : Fin dof → α,
        CGcController.resultForce (CGcController.computeFloatForces
          { c with data_ := some { d with
              des_q_ := des_q, kp_ := kp, des_dq_ := des_dq, des_ddq_ := des_ddq
              io_data_ := { d.io_data_ with
                sensors_ := { d.io_data_.sensors_ with q_ := q } } } })
        = CGcController.resultForce (CGcController.computeFloatForces c) := by
  constructor
  · simp only [CGcController.computeFloatForces, h]
    rfl
  · intro q des_q kp des_dq des_ddq
    simp only [CGcController.computeFloatForces, h]
    rfl

/-- C6 at a concrete one-joint controller. -/
theorem computeFloatForces_float_law_witness :
    (gcCtrl1 (-1) 1).data_ = some (gcData1 (-1) 1) ∧
    (CGcController.computeFloatForces (gcCtrl1 (-1) 1)
        = some (true, { gcCtrl1 (-1) 1 with
            data_ := some { gcData1 (-1) 1 with des_force_gc_ := floatLaw (gcData1 (-1) 1) } })
    ∧ ∀ q des_q kp des_dq des_ddq : Fin 1 → ℚ,
        CGcController.resultForce (CGcController.computeFloatForces
          { gcCtrl1 (-1) 1 with data_ := some { gcData1 (-1) 1 with
              des_q_ := des_q, kp_ := kp, des_dq_ := des_dq, des_ddq_ := des_ddq
              io_data_ := { (gcData1 (-1) 1).io_data_ with
                sensors_ := { (gcData1 (-1) 1).io_data_.sensors_ with q_ := q } } } })
        = CGcController.resultForce (CGcController.computeFloatForces (gcCtrl1 (-1) 1))) :=
  ⟨rfl, computeFloatForces_float_law (gcCtrl1 (-1) 1) (gcData1 (-1) 1) rfl⟩

/-- C7, as stated, fails when the bounds cross: with `force_gc_min = 1` and
`force_gc_max = 0` on one joint and everything else zero, the decoupled force of
each of the three laws is `1`, above `force_gc_max`. -/
theorem saturation_fails_crossed_bounds :
    ¬ (CGcController.computeControlForces_tmp3 (gcData1 1 0) 0 ≤ (gcData1 1 0).force_gc_max_ 0)
    ∧ ¬ (CGcController.computePDControlForces_tmp3 (gcData1 1 0) 0
          ≤ (gcData1 1 0).force_gc_max_ 0)
    ∧ ¬ (CGcController.computeFloatForces_tmp1 (gcData1 1 0) 0
          ≤ (gcData1 1 0).force_gc_max_ 0) := by
  simp [CGcController.computeControlForces_tmp3, CGcController.computePDControlForces_tmp3,
    CGcController.computeFloatForces_tmp1, cwiseMin, cwiseMax, cwiseProduct, gcData1]

/-- C7, amended. For each of the three laws and every component `i` whose bounds
are ordered, `force_gc_min i ≤ force_gc_max i`, the decoupled force that is
multiplied by the mass matrix lies in `[force_gc_min i, force_gc_max i]`. -/
theorem saturation_of_ordered_bounds (d : SGcController α dof) (i : Fin dof)
    (h : d.force_gc_min_ i ≤ d.force_gc_max_ i) :
    (d.force_gc_min_ i ≤ CGcController.computeControlForces_tmp3 d i
      ∧ CGcController.computeControlForces_tmp3 d i ≤ d.force_gc_max_ i)
    ∧ (d.force_gc_min_ i ≤ CGcController.computePDControlForces_tmp3 d i
      ∧ CGcController.computePDControlForces_tmp3 d i ≤ d.force_gc_max_ i)
    ∧ (d.force_gc_min_ i ≤ CGcController.computeFloatForces_tmp1 d i
      ∧ CGcController.computeFloatForces_tmp1 d i ≤ d.force_gc_max_ i) := by
  simp only [CGcController.computeControlForces_tmp3, CGcController.computePDControlForces_tmp3,
    CGcController.computeFloatForces_tmp1, cwiseMin, cwiseMax]
  refine ⟨⟨le_max_right _ _, max_le (min_le_right _ _) h⟩,
    ⟨le_max_right _ _, max_le (min_le_right _ _) h⟩,
    ⟨le_max_right _ _, max_le (min_le_right _ _) h⟩⟩

/-- C7, amended, at a concrete one-joint data block with bounds `[-1, 1]`. -/
theorem saturation_of_ordered_bounds_witness :
    (gcData1 (-1) 1).force_gc_min_ 0 ≤ (gcData1 (-1) 1).force_gc_max_ 0 ∧
    ((gcData1 (-1) 1).force_gc_min_ 0 ≤ CGcController.computeControlForces_tmp3 (gcData1 (-1) 1) 0
      ∧ CGcController.computeControlForces_tmp3 (gcData1 (-1) 1) 0
          ≤ (gcData1 (-1) 1).force_gc_max_ 0)
    ∧ ((gcData1 (-1) 1).force_gc_min_ 0
          ≤ CGcController.computePDControlForces_tmp3 (gcData1 (-1) 1) 0
      ∧ CGcController.computePDControlForces_tmp3 (gcData1 (-1) 1) 0
          ≤ (gcData1 (-1) 1).force_gc_max_ 0)
    ∧ ((gcData1 (-1) 1).force_gc_min_ 0
          ≤ CGcController.computeFloatForces_tmp1 (gcData1 (-1) 1) 0
      ∧ CGcController.computeFloatForces_tmp1 (gcData1 (-1) 1) 0
          ≤ (gcData1 (-1) 1).force_gc_max_ 0) :=
  ⟨by simp [gcData1], saturation_of_ordered_bounds (gcData1 (-1) 1) 0 (by simp [gcData1])⟩

end GcLaws

/-! ## Task controller: removing tasks and reset -/

theorem erase_of_at {T : Type} [DecidableEq T] (l : CMappedMultiLevelList T) (n : String)
    (x : T) (h : l.at_ n = some x) :
    ∃ l1, l.erase n = some l1 ∧ l1.list_ = l.list_.filter (fun e1 => !(e1.1 == n)) := by
  unfold CMappedMultiLevelList.at_ at h
  unfold CMappedMultiLevelList.erase
  cases hf : l.list_.find? (fun e => e.1 == n) with
  | none => simp [hf] at h
  | some e => exact ⟨_, rfl, rfl⟩

section RemoveTask

variable {α : Type} {dof : Nat}

/-- A call of `removeTask` that finds the name has no result: after the erase,
`delete *tmp` reads the erased element. -/
theorem removeTask_of_at {T0 : Type} {n0 : Nat} (c : CTaskController T0 n0) (name : String)
    (x : Option CTaskBase) (h : c.tasks_.at_ name = some x) :
    CTaskController.removeTask c name = none := by
  obtain ⟨l1, hl1, -⟩ := erase_of_at c.tasks_ name x h
  simp [CTaskController.removeTask, CTaskController.removeTask_given, h, hl1]

/-- C11. In a state with exactly two registered tasks `a` (under `na`) and `b`
(under `nb`), in either list order and with `task_count_ = 2`, `removeTask na` as
written has no result: `delete *tmp` reads the element that `erase` has removed.
The writes of the call are the ones claimed: with the erased element taken to be
still readable the call returns true, the count becomes 1, `getTask na` fails,
`b` is still registered and the active task is `b`. -/
theorem removeTask_reads_erased_element (c : CTaskController α dof) (na nb : String)
    (a b : CTaskBase) (la lb : Nat) (hne : na ≠ nb)
    (hreg : c.tasks_.list_ = [(na, some a, la), (nb, some b, lb)]
      ∨ c.tasks_.list_ = [(nb, some b, lb), (na, some a, la)])
    (hcount : c.task_count_ = 2) :
    CTaskController.removeTask c na = none
    ∧ ∃ c1, CTaskController.removeTask_given true c na = some (true, c1)
      ∧ c1.task_count_ = 1
      ∧ CTaskController.getTask c1 na = none
      ∧ c1.active_task_ = some b
      ∧ CTaskController.getTask c1 nb = some b
      ∧ c1.tasks_.list_ = [(nb, some b, lb)] := by
  have h1 : (na == nb) = false := by simpa using hne
  have h2 : (nb == na) = false := by simpa using fun h => hne h.symm
  have hat : c.tasks_.at_ na = some (some a) := by
    rcases hreg with hreg | hreg <;>
      simp [CMappedMultiLevelList.at_, hreg, List.find?, h2]
  obtain ⟨l1, hl1, hlist⟩ := erase_of_at c.tasks_ na (some a) hat
  have hlist1 : l1.list_ = [(nb, some b, lb)] := by
    rcases hreg with hreg | hreg <;> simp [hlist, hreg, List.filter, h1, h2]
  have hml : c.tasks_.erase na = some { list_ := [(nb, some b, lb)], mlvec_ := l1.mlvec_ } := by
    rw [hl1, ← hlist1]
  refine ⟨removeTask_of_at c na (some a) hat,
    { c with tasks_ := { list_ := [(nb, some b, lb)], mlvec_ := l1.mlvec_ }
             task_count_ := 1, active_task_ := some b }, ?_, rfl, ?_, rfl, ?_, rfl⟩
  · simp [CTaskController.removeTask_given, hat, hml, hcount, CMappedMultiLevelList.begin_]
  · simp [CTaskController.getTask, CMappedMultiLevelList.at_, List.find?, h2]
  · simp [CTaskController.getTask, CMappedMultiLevelList.at_, List.find?]

/-- C11 at the concrete two-task controller `taskCtrl2`, removing `hand`. -/
theorem removeTask_reads_erased_element_witness :
    CTaskController.removeTask taskCtrl2 "hand" = none
    ∧ ∃ c1, CTaskController.removeTask_given true taskCtrl2 "hand" = some (true, c1)
      ∧ c1.task_count_ = 1
      ∧ CTaskController.getTask c1 "hand" = none
      ∧ c1.active_task_ = some (taskObj 1)
      ∧ CTaskController.getTask c1 "posture" = some (taskObj 1)
      ∧ c1.tasks_.list_ = [("posture", some (taskObj 1), 1)] :=
  removeTask_reads_erased_element taskCtrl2 "hand" "posture" (taskObj 0) (taskObj 1) 0 1
    (by decide) (Or.inr rfl) rfl

/-- C12. `removeTask` on a name without an entry returns false and leaves the
whole controller (task count, registered tasks, active task) as it was. -/
theorem removeTask_unknown_name (c : CTaskController α dof) (name : String)
    (h : c.tasks_.at_ name = none) :
    CTaskController.removeTask c name = some (false, c) := by
  simp [CTaskController.removeTask, CTaskController.removeTask_given, h]

/-- C12 at the concrete two-task controller `taskCtrl2` and the name `elbow`. -/
theorem removeTask_unknown_name_witness :
    taskCtrl2.tasks_.at_ "elbow" = none
    ∧ CTaskController.removeTask taskCtrl2 "elbow" = some (false, taskCtrl2) :=
  ⟨by decide, removeTask_unknown_name taskCtrl2 "elbow" (by decide)⟩

/-- C13. `reset` returns true from every state and leaves task count 0, no
registered task (no entry, no level, every `getTask` fails) and no active task; an
`addTask` made on the state right after it returns false for every name, task and
level, and changes nothing. -/
theorem reset_empties_and_blocks_addTask (c : CTaskController α dof) :
    (CTaskController.reset c).1 = true
    ∧ (CTaskController.reset c).2.task_count_ = 0
    ∧ (CTaskController.reset c).2.tasks_.list_ = []
    ∧ (CTaskController.reset c).2.tasks_.mlvec_ = []
    ∧ (∀ name, CTaskController.getTask (CTaskController.reset c).2 name = none)
    ∧ (CTaskController.reset c).2.active_task_ = none
    ∧ ∀ (name : String) (arg_task : Option CTaskBase) (lvl : Nat),
        CTaskController.addTask (CTaskController.reset c).2 name arg_task lvl
          = (false, (CTaskController.reset c).2) :=
  ⟨rfl, rfl, rfl, rfl, fun _ => rfl, rfl, fun _ _ _ => rfl⟩

end RemoveTask

/-! ## Task controller: ticks without tasks and the commanded force -/

section ControlForces

variable {α : Type} {dof : Nat}

/-- C14. No objectives, no tick: with the controller bound to its data and its
dynamics engine and `task_count_ = 0`, `computeDynamics` returns false whatever
the dynamics update returns; no descriptor (hence no range space) is written and
no task is asked for its model. -/
theorem computeDynamics_no_tasks [LinearOrderedField α] (env : Env α dof)
    (c : CTaskController α dof)
    (w : World α dof) (data : STaskController α dof) (dyn : CDynamicsBase)
    (hd : c.data_ = some data) (hdyn : c.dynamics_ = some dyn) (h0 : c.task_count_ = 0) :
    ∃ c1 w1, CTaskController.computeDynamics env c w = some (false, c1, w1)
      ∧ w1.task_ds_ = w.task_ds_
      ∧ w1.calls_ = w.calls_ ++ [ExternCall.updateModelMatrices]
      ∧ c1.task_count_ = 0 ∧ c1.tasks_ = c.tasks_ ∧ c1.active_task_ = c.active_task_ := by
  refine ⟨{ c with data_ := some { data with
      gc_model_ := (env.updateModelMatrices data.io_data_.sensors_ data.gc_model_).2 } },
    { w with calls_ := w.calls_ ++ [ExternCall.updateModelMatrices] }, ?_, rfl, rfl, h0, rfl, rfl⟩
  simp [CTaskController.computeDynamics, hd, hdyn, h0]

/-- C14 at a concrete bound controller without tasks, with a failing and with a
succeeding dynamics update. -/
theorem computeDynamics_no_tasks_witness :
    (∃ c1 w1, CTaskController.computeDynamics envDynFail
        { taskCtrl1 with tasks_ := CMappedMultiLevelList.empty, task_count_ := 0 } world0
          = some (false, c1, w1)
      ∧ w1.task_ds_ = world0.task_ds_
      ∧ w1.calls_ = world0.calls_ ++ [ExternCall.updateModelMatrices]
      ∧ c1.task_count_ = 0 ∧ c1.tasks_ = CMappedMultiLevelList.empty
      ∧ c1.active_task_ = taskCtrl1.active_task_)
    ∧ (∃ c1 w1, CTaskController.computeDynamics envOk
        { taskCtrl1 with tasks_ := CMappedMultiLevelList.empty, task_count_ := 0 } world0
          = some (false, c1, w1)
      ∧ w1.task_ds_ = world0.task_ds_
      ∧ w1.calls_ = world0.calls_ ++ [ExternCall.updateModelMatrices]
      ∧ c1.task_count_ = 0 ∧ c1.tasks_ = CMappedMultiLevelList.empty
      ∧ c1.active_task_ = taskCtrl1.active_task_) :=
  ⟨computeDynamics_no_tasks envDynFail
      { taskCtrl1 with tasks_ := CMappedMultiLevelList.empty, task_count_ := 0 } world0
      taskData1 { has_been_init_ := true } rfl rfl rfl,
    computeDynamics_no_tasks envOk
      { taskCtrl1 with tasks_ := CMappedMultiLevelList.empty, task_count_ := 0 } world0
      taskData1 { has_been_init_ := true } rfl rfl rfl⟩

end ControlForces

/-! ## Joint-space controller: initialization -/

section GcInit

variable {α : Type} {dof : Nat}

theorem skipRoots_none_iff (itr : List (SRigidBody α)) :
    CGcController.skipRoots itr = none ↔ nonRootCount itr = 0 := by
  induction itr with
  | nil => simp [CGcController.skipRoots, nonRootCount]
  | cons l rest ih =>
    cases hl : l.is_root_ <;>
      simp [CGcController.skipRoots, nonRootCount, List.filter, hl] at ih ⊢
    exact ih

theorem skipRoots_some (itr r : List (SRigidBody α)) (h : CGcController.skipRoots itr = some r) :
    ∃ l rest, r = l :: rest ∧ l.is_root_ = false
      ∧ nonRootCount itr = nonRootCount rest + 1 := by
  induction itr with
  | nil => simp [CGcController.skipRoots] at h
  | cons l rest ih =>
    cases hl : l.is_root_
    · simp only [CGcController.skipRoots, hl, Bool.false_eq_true, if_false,
        Option.some.injEq] at h
      exact ⟨l, rest, h.symm, hl, by simp [nonRootCount, List.filter, hl]⟩
    · simp only [CGcController.skipRoots, hl, if_true] at h
      obtain ⟨l1, rest1, h1, h2, h3⟩ := ih h
      exact ⟨l1, rest1, h1, h2, by simpa [nonRootCount, List.filter, hl] using h3⟩

theorem skipRootsGuarded_nil_iff (itr : List (SRigidBody α)) :
    CGcController.skipRootsGuarded itr = [] ↔ nonRootCount itr = 0 := by
  induction itr with
  | nil => simp [CGcController.skipRootsGuarded, nonRootCount]
  | cons l rest ih =>
    cases hl : l.is_root_ <;>
      simp [CGcController.skipRootsGuarded, nonRootCount, List.filter, hl] at ih ⊢
    exact ih

/-- The lockstep loop: with at most as many COM records as non-root links left
it completes and leaves the other non-root links unvisited; with more COM
records it reads the link iterator at the end position. -/
theorem init_loop_spec [LinearOrderedField α] (getIdForLink : String → Int) (n : Nat) (coms : List SCOMInfo) :
    ∀ (itr : List (SRigidBody α)) (mass : α),
      (coms.length ≤ nonRootCount itr →
        ∃ coms1 mass1 itr1,
          CGcController.init_loop getIdForLink n coms itr mass = some (true, coms1, mass1, itr1)
          ∧ nonRootCount itr1 + coms.length = nonRootCount itr
          ∧ coms1.length = coms.length)
      ∧ (nonRootCount itr < coms.length →
          CGcController.init_loop getIdForLink n coms itr mass = none) := by
  induction coms with
  | nil =>
    intro itr mass
    exact ⟨fun _ => ⟨[], mass, itr, rfl, by simp, rfl⟩, fun h => by simp at h⟩
  | cons com coms ih =>
    intro itr mass
    cases hs : CGcController.skipRoots itr with
    | none =>
      have h0 := (skipRoots_none_iff itr).mp hs
      refine ⟨fun h => ?_, fun _ => ?_⟩
      · simp [h0] at h
      · simp [CGcController.init_loop, hs]
    | some r =>
      obtain ⟨l, rest, hr, _, hcount⟩ := skipRoots_some itr r hs
      subst hr
      obtain ⟨ih1, ih2⟩ := ih rest (mass + l.mass_)
      refine ⟨fun h => ?_, fun h => ?_⟩
      · obtain ⟨coms1, mass1, itr1, h1, h2, h3⟩ := ih1 (by simp at h; omega)
        simp only [CGcController.init_loop, hs, h1]
        exact ⟨_, _, _, rfl, by simp only [List.length_cons]; omega, by simp [h3]⟩
      · have h1 := ih2 (by simp at h; omega)
        simp only [CGcController.init_loop, hs, h1]

/-- C17, the size check as the code performs it. With initialized data and
dynamics arguments and the robot bound, `init` returns true (flag set) when the
number of COM records equals the number of non-root links, returns false (flag
cleared) when there are fewer COM records, and has no result when there are more
COM records: the loop `while(itr->is_root_) ++itr` then reads the link iterator
at the end position before the test `itr == itre` is reached. -/
theorem gc_init_size_check [LinearOrderedField α] (getIdForLink : String → Int)
    (c : CGcController α dof) (data : SGcController α dof) (dyn : CDynamicsBase)
    (robot : SRobotParsed α)
    (hdata : data.has_been_init_ = true) (hdyn : dyn.has_been_init_ = true)
    (hrobot : data.robot_ = some robot) :
    (data.gc_model_.coms_.length = nonRootCount robot.robot_br_rep_ →
      ∃ c1, CGcController.init getIdForLink c (some data) (some dyn) = some (true, c1)
        ∧ c1.has_been_init_ = true)
    ∧ (data.gc_model_.coms_.length < nonRootCount robot.robot_br_rep_ →
      ∃ c1, CGcController.init getIdForLink c (some data) (some dyn) = some (false, c1)
        ∧ c1.has_been_init_ = false)
    ∧ (nonRootCount robot.robot_br_rep_ < data.gc_model_.coms_.length →
      CGcController.init getIdForLink c (some data) (some dyn) = none) := by
  obtain ⟨hle, hgt⟩ := init_loop_spec getIdForLink robot.robot_br_rep_.length
    data.gc_model_.coms_ robot.robot_br_rep_ (0 : α)
  refine ⟨fun h => ?_, fun h => ?_, fun h => ?_⟩
  · obtain ⟨coms1, mass1, itr1, h1, h2, _⟩ := hle (by omega)
    have h0 : nonRootCount itr1 = 0 := by omega
    cases itr1 with
    | nil => simp [CGcController.init, hdata, hdyn, hrobot, h1]
    | cons l rest =>
      simp [CGcController.init, hdata, hdyn, hrobot, h1,
        (skipRootsGuarded_nil_iff (l :: rest)).mpr h0]
  · obtain ⟨coms1, mass1, itr1, h1, h2, _⟩ := hle (by omega)
    have h0 : nonRootCount itr1 ≠ 0 := by omega
    cases itr1 with
    | nil => exact absurd rfl h0
    | cons l rest =>
      cases hg : CGcController.skipRootsGuarded (l :: rest) with
      | nil => exact absurd ((skipRootsGuarded_nil_iff (l :: rest)).mp hg) h0
      | cons l1 rest1 =>
        simp [CGcController.init, hdata, hdyn, hrobot, h1, hg, CGcController.init_catch]
  · simp [CGcController.init, hdata, hdyn, hrobot, hgt h]

/-- C17 at the robot `robot2` (a root and one link): one COM record initializes,
no COM record is rejected, and with two COM records the call has no result. -/
theorem gc_init_size_check_witness :
    (gcDataRobot [comBlank, comBlank]).has_been_init_ = true
    ∧ (gcDataRobot [comBlank, comBlank]).robot_ = some robot2
    ∧ nonRootCount robot2.robot_br_rep_ < (gcDataRobot [comBlank, comBlank]).gc_model_.coms_.length
    ∧ CGcController.init linkId7 gcCtrlNew (some (gcDataRobot [comBlank, comBlank]))
        (some { has_been_init_ := true }) = none
    ∧ (CGcController.init linkId7 gcCtrlNew (some (gcDataRobot [comBlank]))
        (some { has_been_init_ := true })).map
          (fun r => (r.1, r.2.has_been_init_)) = some (true, true)
    ∧ (CGcController.init linkId7 gcCtrlNew (some (gcDataRobot []))
        (some { has_been_init_ := true })).map
          (fun r => (r.1, r.2.has_been_init_)) = some (false, false) :=
  ⟨rfl, rfl, by decide,
    (gc_init_size_check linkId7 gcCtrlNew (gcDataRobot [comBlank, comBlank])
      { has_been_init_ := true } robot2 rfl rfl rfl).2.2 (by decide),
    rfl, rfl⟩

/-- C18. Argument validation: when the data argument is null or not initialized,
or the dynamics argument is null or not initialized, `CGcController::init` and
`CTaskController::init` both return false and leave the controller's
`has_been_init_` false, whatever state the controller was in before. -/
theorem init_rejects_invalid_arguments [LinearOrderedField α] {dofg : Nat}
    (getIdForLink : String → Int)
    (env : Env α dof) (gc : CGcController α dofg) (tc : CTaskController α dof) (w : World α dof)
    (gdata : Option (SGcController α dofg)) (tdata : Option (STaskController α dof))
    (dyn : Option CDynamicsBase)
    (hg : gdata = none ∨ (∃ d, gdata = some d ∧ d.has_been_init_ = false)
      ∨ dyn = none ∨ (∃ y, dyn = some y ∧ y.has_been_init_ = false))
    (ht : tdata = none ∨ (∃ d, tdata = some d ∧ d.has_been_init_ = false)
      ∨ dyn = none ∨ (∃ y, dyn = some y ∧ y.has_been_init_ = false)) :
    (∃ c1, CGcController.init getIdForLink gc gdata dyn = some (false, c1)
      ∧ c1.has_been_init_ = false)
    ∧ (CTaskController.init env tc w tdata dyn).1 = false
    ∧ (CTaskController.init env tc w tdata dyn).2.1.has_been_init_ = false := by
  refine ⟨?_, ?_⟩
  · cases gdata with
    | none => exact ⟨_, rfl, rfl⟩
    | some d =>
      cases hd : d.has_been_init_ with
      | false => simp [CGcController.init, hd, CGcController.init_catch]
      | true =>
        cases dyn with
        | none => simp [CGcController.init, hd, CGcController.init_catch]
        | some y =>
          cases hy : y.has_been_init_ with
          | false => simp [CGcController.init, hd, hy, CGcController.init_catch]
          | true =>
            rcases hg with h | ⟨d1, h1, h2⟩ | h | ⟨y1, h1, h2⟩
            · exact absurd h (by simp)
            · simp only [Option.some.injEq] at h1
              subst h1
              rw [hd] at h2
              exact absurd h2 (by simp)
            · exact absurd h (by simp)
            · simp only [Option.some.injEq] at h1
              subst h1
              rw [hy] at h2
              exact absurd h2 (by simp)
  · cases tdata with
    | none => exact ⟨rfl, rfl⟩
    | some d =>
      cases hd : d.has_been_init_ with
      | false => simp [CTaskController.init, hd, CTaskController.init_catch]
      | true =>
        cases dyn with
        | none => simp [CTaskController.init, hd, CTaskController.init_catch]
        | some y =>
          cases hy : y.has_been_init_ with
          | false => simp [CTaskController.init, hd, hy, CTaskController.init_catch]
          | true =>
            rcases ht with h | ⟨d1, h1, h2⟩ | h | ⟨y1, h1, h2⟩
            · exact absurd h (by simp)
            · simp only [Option.some.injEq] at h1
              subst h1
              rw [hd] at h2
              exact absurd h2 (by simp)
            · exact absurd h (by simp)
            · simp only [Option.some.injEq] at h1
              subst h1
              rw [hy] at h2
              exact absurd h2 (by simp)

/-- C18 at initialized controllers given valid data but a dynamics engine that is
not initialized. -/
theorem init_rejects_invalid_arguments_witness :
    (∃ c1, CGcController.init linkId7 (gcCtrl1 (-1) 1) (some (gcDataRobot [comBlank]))
        (some { has_been_init_ := false }) = some (false, c1)
      ∧ c1.has_been_init_ = false)
    ∧ (CTaskController.init envOk taskCtrl2 world2 (some taskData2)
        (some { has_been_init_ := false })).1 = false
    ∧ (CTaskController.init envOk taskCtrl2 world2 (some taskData2)
        (some { has_been_init_ := false })).2.1.has_been_init_ = false :=
  init_rejects_invalid_arguments linkId7 envOk (gcCtrl1 (-1) 1) taskCtrl2 world2
    (some (gcDataRobot [comBlank])) (some taskData2) (some { has_been_init_ := false })
    (Or.inr (Or.inr (Or.inr ⟨_, rfl, rfl⟩))) (Or.inr (Or.inr (Or.inr ⟨_, rfl, rfl⟩)))

end GcInit

/-! ## Joint-space controller: the worked example -/

theorem clamp_of_mem (lo hi x : ℚ) (h1 : lo ≤ x) (h2 : x ≤ hi) : max (min x hi) lo = x := by
  rw [min_eq_left h2, max_eq_left h1]

/-- C20. Worked example: with `dof = 3`, `kp = [10,10,10]`, `kv = [3,3,3]`,
`q = 0`, `des_q = [0.1,0,0]`, `dq = 0`, `A = Identity(3)`, `g = 0` and force bounds
that contain `[1,0,0]`, `computePDControlForces` and `computeControlForces`
(with `des_dq = des_ddq = 0`) both return true, with the decoupled force `[1,0,0]`
and the commanded force `des_force_gc_ = [1,0,0]`. -/
theorem worked_example_pd (fmin fmax : Fin 3 → ℚ)
    (hmin : ∀ i, fmin i ≤ (![1, 0, 0] : Fin 3 → ℚ) i)
    (hmax : ∀ i, (![1, 0, 0] : Fin 3 → ℚ) i ≤ fmax i) :
    CGcController.computePDControlForces_tmp3 (gcData3 fmin fmax) = ![1, 0, 0]
    ∧ (CGcController.computePDControlForces (gcCtrl3 fmin fmax)).map
        (fun r => (r.1, r.2.data_.map (fun d => d.des_force_gc_)))
          = some (true, some ![1, 0, 0])
    ∧ CGcController.computeControlForces_tmp3 (gcData3 fmin fmax) = ![1, 0, 0]
    ∧ (CGcController.computeControlForces (gcCtrl3 fmin fmax)).map
        (fun r => (r.1, r.2.data_.map (fun d => d.des_force_gc_)))
          = some (true, some ![1, 0, 0]) := by
  have hraw1 : ∀ i : Fin 3,
      -((3 : ℚ) * 0) - 10 * (0 - (![1 / 10, 0, 0] : Fin 3 → ℚ) i)
        = (![1, 0, 0] : Fin 3 → ℚ) i := by
    intro i
    fin_cases i <;> simp
  have hraw2 : ∀ i : Fin 3,
      (0 : ℚ) + 3 * (0 - 0) + 10 * ((![1 / 10, 0, 0] : Fin 3 → ℚ) i - 0)
        = (![1, 0, 0] : Fin 3 → ℚ) i := by
    intro i
    fin_cases i <;> simp
  have hpd : CGcController.computePDControlForces_tmp3 (gcData3 fmin fmax) = ![1, 0, 0] := by
    funext i
    show max (min (-((3 : ℚ) * 0) - 10 * (0 - (![1 / 10, 0, 0] : Fin 3 → ℚ) i)) (fmax i))
      (fmin i) = _
    rw [hraw1 i]
    exact clamp_of_mem _ _ _ (hmin i) (hmax i)
  have hfull : CGcController.computeControlForces_tmp3 (gcData3 fmin fmax) = ![1, 0, 0] := by
    funext i
    show max (min ((0 : ℚ) + 3 * (0 - 0) + 10 * ((![1 / 10, 0, 0] : Fin 3 → ℚ) i - 0))
      (fmax i)) (fmin i) = _
    rw [hraw2 i]
    exact clamp_of_mem _ _ _ (hmin i) (hmax i)
  have hmap : (1 : Matrix (Fin 3) (Fin 3) ℚ).mulVec ![1, 0, 0] + (fun _ => (0 : ℚ))
      = ![1, 0, 0] := by
    funext i
    simp [Matrix.one_mulVec]
  refine ⟨hpd, ?_, hfull, ?_⟩
  · show some (true, some ((1 : Matrix (Fin 3) (Fin 3) ℚ).mulVec
      (CGcController.computePDControlForces_tmp3 (gcData3 fmin fmax)) + (fun _ => (0 : ℚ)))) = _
    rw [hpd, hmap]
  · show some (true, some ((1 : Matrix (Fin 3) (Fin 3) ℚ).mulVec
      (CGcController.computeControlForces_tmp3 (gcData3 fmin fmax)) + (fun _ => (0 : ℚ)))) = _
    rw [hfull, hmap]

/-- C20 with the bounds of the example, `min = [-10,-10,-10]` and
`max = [10,10,10]`. -/
theorem worked_example_pd_witness :
    CGcController.computePDControlForces_tmp3 (gcData3 (fun _ => -10) (fun _ => 10)) = ![1, 0, 0]
    ∧ (CGcController.computePDControlForces (gcCtrl3 (fun _ => -10) (fun _ => 10))).map
        (fun r => (r.1, r.2.data_.map (fun d => d.des_force_gc_)))
          = some (true, some ![1, 0, 0])
    ∧ CGcController.computeControlForces_tmp3 (gcData3 (fun _ => -10) (fun _ => 10)) = ![1, 0, 0]
    ∧ (CGcController.computeControlForces (gcCtrl3 (fun _ => -10) (fun _ => 10))).map
        (fun r => (r.1, r.2.data_.map (fun d => d.des_force_gc_)))
          = some (true, some ![1, 0, 0]) :=
  worked_example_pd (fun _ => -10) (fun _ => 10)
    (fun i => by fin_cases i <;> norm_num) (fun i => by fin_cases i <;> norm_num)

/-! ## Task controller: population by `init` -/

section InitPopulation

variable {α : Type} {dof : Nat}

theorem okPrefix_of_descriptorsOk (env : Env α dof) (mem : Nat → STaskBase α dof)
    (es : List (Option Nat)) :
    ∀ earlier, descriptorsOk env mem earlier es = true → okPrefix env mem earlier es = es.length := by
  induction es with
  | nil => intro _ _; rfl
  | cons e es ih =>
    intro earlier h
    simp only [descriptorsOk, Bool.and_eq_true] at h
    simp [okPrefix, h.1, ih _ h.2]

theorem init_level_append (env : Env α dof) (l1 l2 : List (Option Nat)) :
    ∀ (c : CTaskController α dof) (w : World α dof),
      CTaskController.init_level env (l1 ++ l2) c w
        = (match CTaskController.init_level env l1 c w with
          | (false, c1, w1) => (false, c1, w1)
          | (true, c1, w1) => CTaskController.init_level env l2 c1 w1) := by
  induction l1 with
  | nil => intro c w; rfl
  | cons e es ih =>
    intro c w
    simp only [List.cons_append, CTaskController.init_level]
    rcases hr : CTaskController.init_task env c w e with ⟨b, c1, w1⟩
    cases b
    · rfl
    · exact ih c1 w1

theorem init_levels_flatten (env : Env α dof) (ls : List (List (Option Nat))) :
    ∀ (c : CTaskController α dof) (w : World α dof),
      CTaskController.init_levels env ls c w = CTaskController.init_level env ls.flatten c w := by
  induction ls with
  | nil => intro c w; rfl
  | cons l ls ih =>
    intro c w
    simp only [CTaskController.init_levels, List.flatten_cons, init_level_append]
    rcases hr : CTaskController.init_level env l c w with ⟨b, c1, w1⟩
    cases b
    · rfl
    · exact ih c1 w1

theorem at_ne_none_of_create {T : Type} (l l1 : CMappedMultiLevelList T) (name : String)
    (x : T) (lvl : Nat) (h : l.create name x lvl = some l1) (n : String) :
    l1.at_ n ≠ none ↔ (n = name ∨ l.at_ n ≠ none) := by
  by_cases hn : n = name
  · subst hn
    simp [at_create_self l l1 n x lvl h]
  · rw [at_create_other l l1 name n x lvl h hn]
    simp [hn]

/-- A descriptor that fails the specification's test makes the loop body throw
with the controller unchanged. -/
theorem init_task_fail (env : Env α dof) (c : CTaskController α dof) (w : World α dof)
    (data : STaskController α dof) (earlier : List String) (e : Option Nat)
    (hd : c.data_ = some data)
    (hinv : ∀ n, c.tasks_.at_ n ≠ none ↔ n ∈ earlier)
    (hok : descriptorOk env w.task_ds_ earlier e = false) :
    ∃ w1, CTaskController.init_task env c w e = (false, c, w1) ∧ w1.task_ds_ = w.task_ds_ := by
  cases e with
  | none => exact ⟨w, rfl, rfl⟩
  | some p =>
    cases hreg : env.getObjectForType ("C" ++ (w.task_ds_ p).type_task_) with
    | false => exact ⟨w, by simp [CTaskController.init_task, hreg], rfl⟩
    | true =>
      cases hini : env.task_init ("C" ++ (w.task_ds_ p).type_task_) p with
      | false =>
        exact ⟨{ w with next_obj_ := w.next_obj_ + 1 },
          by simp [CTaskController.init_task, hreg, hini], rfl⟩
      | true =>
        have hmem : (w.task_ds_ p).name_ ∈ earlier := by
          simpa [descriptorOk, hreg, hini] using hok
        have hat : c.tasks_.at_ (w.task_ds_ p).name_ ≠ none := (hinv _).mpr hmem
        obtain ⟨x, hx⟩ := Option.ne_none_iff_exists'.mp hat
        refine ⟨{ w with next_obj_ := w.next_obj_ + 1 }, ?_, rfl⟩
        simp [CTaskController.init_task, hreg, hini, CTaskController.addTask, hd,
          CMappedMultiLevelList.create, hx]

/-- A descriptor that passes the specification's test is registered: the loop
body does not throw, the count grows by one, the new task is found under the
descriptor's name and every earlier task is still found. -/
theorem init_task_ok (env : Env α dof) (c : CTaskController α dof) (w : World α dof)
    (data : STaskController α dof) (earlier : List String) (e : Option Nat)
    (hd : c.data_ = some data)
    (hinv : ∀ n, c.tasks_.at_ n ≠ none ↔ n ∈ earlier)
    (hok : descriptorOk env w.task_ds_ earlier e = true) :
    ∃ p t c1 w1, e = some p ∧ CTaskController.init_task env c w e = (true, c1, w1)
      ∧ w1.task_ds_ = w.task_ds_
      ∧ c1.data_ = some data ∧ c1.has_been_init_ = c.has_been_init_
      ∧ c1.task_count_ = c.task_count_ + 1
      ∧ CTaskController.getTask c1 (w.task_ds_ p).name_ = some t ∧ t.data_ = p
      ∧ (∀ n t0, CTaskController.getTask c n = some t0 → CTaskController.getTask c1 n = some t0)
      ∧ (∀ n, c1.tasks_.at_ n ≠ none ↔ n ∈ (w.task_ds_ p).name_ :: earlier) := by
  cases e with
  | none => simp [descriptorOk] at hok
  | some p =>
    simp only [descriptorOk, Bool.and_eq_true, decide_eq_true_eq] at hok
    obtain ⟨⟨hreg, hini⟩, hfresh⟩ := hok
    have hat : c.tasks_.at_ (w.task_ds_ p).name_ = none := by
      by_contra h
      exact hfresh ((hinv _).mp h)
    obtain ⟨l1, hl1⟩ := create_isSome_of_fresh c.tasks_ (w.task_ds_ p).name_
      (some ({ addr_ := w.next_obj_, has_been_init_ := true, data_ := p } : CTaskBase))
      (CTaskController.toUInt (w.task_ds_ p).priority_) hat
    have hself := at_create_self _ _ _ _ _ hl1
    refine ⟨p, { addr_ := w.next_obj_, has_been_init_ := true, data_ := p },
      { (if c.task_count_ = 0 then
          { c with tasks_ := l1
                   active_task_ := some { addr_ := w.next_obj_, has_been_init_ := true, data_ := p } }
        else { c with tasks_ := l1 }) with task_count_ := c.task_count_ + 1 },
      { w with next_obj_ := w.next_obj_ + 1 }, rfl, ?_, rfl, ?_, ?_, ?_, ?_, rfl, ?_, ?_⟩
    · simp only [CTaskController.init_task, hreg, hini, CTaskController.addTask, hd, hl1]
      by_cases h0 : c.task_count_ = 0 <;> simp [h0]
    · by_cases h0 : c.task_count_ = 0 <;> simp [h0, hd]
    · by_cases h0 : c.task_count_ = 0 <;> simp [h0]
    · by_cases h0 : c.task_count_ = 0 <;> simp [h0]
    · by_cases h0 : c.task_count_ = 0 <;> simp [CTaskController.getTask, h0, hself]
    · intro n t0 hn
      have hne : n ≠ (w.task_ds_ p).name_ := by
        intro h
        subst h
        simp [CTaskController.getTask, hat] at hn
      have hother := at_create_other _ _ _ n _ _ hl1 hne
      by_cases h0 : c.task_count_ = 0
      · simpa [CTaskController.getTask, h0, hother] using hn
      · simpa [CTaskController.getTask, h0, hother] using hn
    · intro n
      have hcr := at_ne_none_of_create _ _ _ _ _ hl1 n
      by_cases h0 : c.task_count_ = 0
      · simp only [h0, if_true, List.mem_cons]
        rw [hcr, hinv n]
      · simp only [h0, if_false, List.mem_cons]
        rw [hcr, hinv n]

/-- The inner loop over the whole visiting order: it runs to its end exactly
when every descriptor passes, registers the descriptors before the first failing
one, and keeps every task registered so far. -/
theorem init_level_spec (env : Env α dof) (data : STaskController α dof)
    (mem : Nat → STaskBase α dof) (es : List (Option Nat)) :
    ∀ (c : CTaskController α dof) (w : World α dof) (earlier : List String),
      c.data_ = some data → w.task_ds_ = mem →
      (∀ n, c.tasks_.at_ n ≠ none ↔ n ∈ earlier) →
      ∃ c1 w1, CTaskController.init_level env es c w
          = (descriptorsOk env mem earlier es, c1, w1)
        ∧ w1.task_ds_ = mem ∧ c1.data_ = some data
        ∧ c1.has_been_init_ = c.has_been_init_
        ∧ c1.task_count_ = c.task_count_ + (okPrefix env mem earlier es : Nat)
        ∧ (∀ n t0, CTaskController.getTask c n = some t0 →
            CTaskController.getTask c1 n = some t0)
        ∧ (descriptorsOk env mem earlier es = true → ∀ p, some p ∈ es →
            ∃ t, CTaskController.getTask c1 (mem p).name_ = some t ∧ t.data_ = p) := by
  induction es with
  | nil =>
    intro c w earlier hd hw _
    exact ⟨c, w, rfl, hw, hd, rfl, by simp [okPrefix], fun _ _ h => h,
      fun _ p hp => absurd hp (List.not_mem_nil _)⟩
  | cons e es ih =>
    intro c w earlier hd hw hinv
    subst hw
    cases hok : descriptorOk env w.task_ds_ earlier e with
    | false =>
      obtain ⟨w1, h1, h2⟩ := init_task_fail env c w data earlier e hd hinv hok
      refine ⟨c, w1, ?_, h2, hd, rfl, ?_, fun _ _ h => h, ?_⟩
      · simp [CTaskController.init_level, h1, descriptorsOk, hok]
      · simp [okPrefix, hok]
      · intro h
        simp [descriptorsOk, hok] at h
    | true =>
      obtain ⟨p, t, c1, w1, he, h1, h2, h3, h4, h5, h6, h7, h8, h9⟩ :=
        init_task_ok env c w data earlier e hd hinv hok
      subst he
      obtain ⟨c2, w2, k1, k2, k3, k4, k5, k6, k7⟩ :=
        ih c1 w1 ((w.task_ds_ p).name_ :: earlier) h3 h2 h9
      refine ⟨c2, w2, ?_, k2, k3, by rw [k4, h4], ?_, fun n t0 h => k6 n t0 (h8 n t0 h), ?_⟩
      · simp [CTaskController.init_level, h1, k1, descriptorsOk, hok, entryName]
      · rw [k5, h5]
        simp only [okPrefix, hok, if_true, entryName]
        push_cast
        ring
      · intro hall q hq
        simp only [descriptorsOk, hok, Bool.true_and, entryName] at hall
        rcases List.mem_cons.mp hq with hq | hq
        · simp only [Option.some.injEq] at hq
          subst hq
          exact ⟨t, k6 _ _ h6, h7⟩
        · exact k7 hall q hq

/-- C19. Task-controller population: with initialized data and dynamics
arguments and a successful servo init, `init` returns true exactly when every
descriptor, visited level by level and in list order within a level, is not null,
has a type tag with a registered factory, initializes its task object and has a
name not used by an earlier descriptor.  On success `has_been_init_` is true, the
task count is the number of descriptors and each descriptor's task is found under
the descriptor's name.  On failure `has_been_init_` is false and the tasks
registered are those of the descriptors before the first failing one. -/
theorem init_population [LinearOrderedField α] (env : Env α dof) (c : CTaskController α dof)
    (w : World α dof) (data : STaskController α dof) (dyn : CDynamicsBase)
    (hdata : data.has_been_init_ = true) (hdyn : dyn.has_been_init_ = true)
    (hservo : env.servo_init data.robot_name_ = true) :
    ((CTaskController.init env c w (some data) (some dyn)).1 = true
      ↔ descriptorsOk env w.task_ds_ [] data.tasks_.mlvec_.flatten = true)
    ∧ ((CTaskController.init env c w (some data) (some dyn)).1 = true →
        (CTaskController.init env c w (some data) (some dyn)).2.1.has_been_init_ = true
        ∧ (CTaskController.init env c w (some data) (some dyn)).2.1.task_count_
            = (data.tasks_.mlvec_.flatten.length : Nat)
        ∧ ∀ p, some p ∈ data.tasks_.mlvec_.flatten →
            ∃ t, CTaskController.getTask
                (CTaskController.init env c w (some data) (some dyn)).2.1
                (w.task_ds_ p).name_ = some t
              ∧ t.data_ = p)
    ∧ ((CTaskController.init env c w (some data) (some dyn)).1 = false →
        (CTaskController.init env c w (some data) (some dyn)).2.1.has_been_init_ = false
        ∧ (CTaskController.init env c w (some data) (some dyn)).2.1.task_count_
            = (okPrefix env w.task_ds_ [] data.tasks_.mlvec_.flatten : Nat)) := by
  obtain ⟨c1, w1, h1, _, _, _, h5, _, h7⟩ :=
    init_level_spec env data w.task_ds_ data.tasks_.mlvec_.flatten
      { (CTaskController.reset c).2 with
        data_ := some data, dynamics_ := some dyn, has_been_init_ := true
        servo_ := { has_been_init_ := true } } w [] rfl rfl
      (by intro n; simp [CTaskController.reset, CMappedMultiLevelList.at_,
            CMappedMultiLevelList.empty])
  have hinit : CTaskController.init env c w (some data) (some dyn)
      = (match (descriptorsOk env w.task_ds_ [] data.tasks_.mlvec_.flatten, c1, w1) with
        | (false, c4, w4) => CTaskController.init_catch c4 w4
        | (true, c4, w4) => (true, { c4 with has_been_init_ := true }, w4)) := by
    simp only [CTaskController.init, hdata, hdyn, hservo, init_levels_flatten]
    simp only [Bool.true_eq_false, if_false]
    rw [← h1]
  rw [hinit]
  cases hok : descriptorsOk env w.task_ds_ [] data.tasks_.mlvec_.flatten with
  | false =>
    refine ⟨by simp [CTaskController.init_catch], by simp [CTaskController.init_catch], ?_⟩
    intro _
    refine ⟨rfl, ?_⟩
    simp only [CTaskController.init_catch]
    rw [h5]
    simp [CTaskController.reset]
  | true =>
    refine ⟨by simp, ?_, by simp⟩
    intro _
    refine ⟨rfl, ?_, ?_⟩
    · show c1.task_count_ = _
      rw [h5, okPrefix_of_descriptorsOk env w.task_ds_ _ [] hok]
      simp [CTaskController.reset]
    · intro p hp
      exact h7 hok p hp

/-- C19 at the two-level descriptor list `taskData2` with collaborators that all
succeed. -/
theorem init_population_witness :
    ((CTaskController.init envOk CTaskController.new world0 (some taskData2)
        (some { has_been_init_ := true })).1 = true
      ↔ descriptorsOk envOk world0.task_ds_ [] taskData2.tasks_.mlvec_.flatten = true)
    ∧ ((CTaskController.init envOk CTaskController.new world0 (some taskData2)
        (some { has_been_init_ := true })).1 = true →
        (CTaskController.init envOk CTaskController.new world0 (some taskData2)
          (some { has_been_init_ := true })).2.1.has_been_init_ = true
        ∧ (CTaskController.init envOk CTaskController.new world0 (some taskData2)
            (some { has_been_init_ := true })).2.1.task_count_
            = (taskData2.tasks_.mlvec_.flatten.length : Nat)
        ∧ ∀ p, some p ∈ taskData2.tasks_.mlvec_.flatten →
            ∃ t, CTaskController.getTask
                (CTaskController.init envOk CTaskController.new world0 (some taskData2)
                  (some { has_been_init_ := true })).2.1
                (world0.task_ds_ p).name_ = some t
              ∧ t.data_ = p)
    ∧ ((CTaskController.init envOk CTaskController.new world0 (some taskData2)
        (some { has_been_init_ := true })).1 = false →
        (CTaskController.init envOk CTaskController.new world0 (some taskData2)
          (some { has_been_init_ := true })).2.1.has_been_init_ = false
        ∧ (CTaskController.init envOk CTaskController.new world0 (some taskData2)
            (some { has_been_init_ := true })).2.1.task_count_
            = (okPrefix envOk world0.task_ds_ [] taskData2.tasks_.mlvec_.flatten : Nat)) :=
  init_population envOk CTaskController.new world0 taskData2 { has_been_init_ := true }
    rfl rfl rfl

end InitPopulation

/-! ## Joint-space controller: where the limits act, nesting and clamp order -/

section GcAlgebra

variable {α : Type} [LinearOrderedField α] {dof : Nat}

/-- C21. The force bounds limit the decoupled force, not the final torque: for
one joint with `A = [2]`, `g = 0`, ordered bounds `[-1, 1]` and a large velocity
error, the decoupled force of each of the three laws is `1`, inside the bounds,
while the commanded `des_force_gc_` is `2`, above `force_gc_max`. -/
theorem limits_act_on_decoupled_force :
    gcDataA2.force_gc_min_ 0 ≤ gcDataA2.force_gc_max_ 0
    ∧ (CGcController.computeControlForces_tmp3 gcDataA2 0 = 1
      ∧ CGcController.computePDControlForces_tmp3 gcDataA2 0 = 1
      ∧ CGcController.computeFloatForces_tmp1 gcDataA2 0 = 1)
    ∧ (gcDataA2.force_gc_min_ 0 ≤ 1 ∧ (1 : ℚ) ≤ gcDataA2.force_gc_max_ 0)
    ∧ ((CGcController.resultForce (CGcController.computeControlForces gcCtrlA2)).map
          (fun f => f 0) = some 2
      ∧ (CGcController.resultForce (CGcController.computePDControlForces gcCtrlA2)).map
          (fun f => f 0) = some 2
      ∧ (CGcController.resultForce (CGcController.computeFloatForces gcCtrlA2)).map
          (fun f => f 0) = some 2)
    ∧ ¬ ((2 : ℚ) ≤ gcDataA2.force_gc_max_ 0) := by
  have h1 : CGcController.computeControlForces_tmp3 gcDataA2 0 = 1 := by
    simp [CGcController.computeControlForces_tmp3, cwiseMin, cwiseMax, cwiseProduct,
      gcDataA2, gcData1]
  have h2 : CGcController.computePDControlForces_tmp3 gcDataA2 0 = 1 := by
    simp [CGcController.computePDControlForces_tmp3, cwiseMin, cwiseMax, cwiseProduct,
      gcDataA2, gcData1]
  have h3 : CGcController.computeFloatForces_tmp1 gcDataA2 0 = 1 := by
    simp [CGcController.computeFloatForces_tmp1, cwiseMin, cwiseMax, cwiseProduct,
      gcDataA2, gcData1]
  have hA : ∀ x : Fin 1 → ℚ,
      ((Matrix.diagonal (fun _ => (2 : ℚ)) : Matrix (Fin 1) (Fin 1) ℚ).mulVec x
        + (fun _ => (0 : ℚ)) : Fin 1 → ℚ) 0 = 2 * x 0 := by
    intro x
    simp [Matrix.mulVec_diagonal]
  refine ⟨by simp [gcDataA2, gcData1], ⟨h1, h2, h3⟩, by simp [gcDataA2, gcData1], ⟨?_, ?_, ?_⟩,
    by simp [gcDataA2, gcData1]⟩
  · show some (((Matrix.diagonal (fun _ => (2 : ℚ)) : Matrix (Fin 1) (Fin 1) ℚ).mulVec
      (CGcController.computeControlForces_tmp3 gcDataA2) + (fun _ => (0 : ℚ)) : Fin 1 → ℚ) 0) = some 2
    rw [hA, h1]
    norm_num
  · show some (((Matrix.diagonal (fun _ => (2 : ℚ)) : Matrix (Fin 1) (Fin 1) ℚ).mulVec
      (CGcController.computePDControlForces_tmp3 gcDataA2) + (fun _ => (0 : ℚ)) : Fin 1 → ℚ) 0) = some 2
    rw [hA, h2]
    norm_num
  · show some (((Matrix.diagonal (fun _ => (2 : ℚ)) : Matrix (Fin 1) (Fin 1) ℚ).mulVec
      (CGcController.computeFloatForces_tmp1 gcDataA2) + (fun _ => (0 : ℚ)) : Fin 1 → ℚ) 0) = some 2
    rw [hA, h3]
    norm_num

/-- C28. The three joint-space laws are nested: on data with `des_dq = 0` and
`des_ddq = 0`, `computeControlForces` writes the same `des_force_gc_` as
`computePDControlForces`; on data with `kp = 0`, `computePDControlForces` writes
the same `des_force_gc_` as `computeFloatForces`. -/
theorem laws_nested (c : CGcController α dof) (d : SGcController α dof)
    (h : c.data_ = some d) :
    ((d.des_dq_ = 0 ∧ d.des_ddq_ = 0) →
      CGcController.resultForce (CGcController.computeControlForces c)
        = CGcController.resultForce (CGcController.computePDControlForces c))
    ∧ (d.kp_ = 0 →
      CGcController.resultForce (CGcController.computePDControlForces c)
        = CGcController.resultForce (CGcController.computeFloatForces c)) := by
  constructor
  · rintro ⟨h1, h2⟩
    have ht : CGcController.computeControlForces_tmp3 d
        = CGcController.computePDControlForces_tmp3 d := by
      funext i
      simp only [CGcController.computeControlForces_tmp3,
        CGcController.computePDControlForces_tmp3, cwiseMin, cwiseMax, cwiseProduct, h1, h2,
        Pi.add_apply, Pi.sub_apply, Pi.neg_apply, Pi.zero_apply]
      congr 2
      ring
    simp only [CGcController.computeControlForces, CGcController.computePDControlForces, h,
      CGcController.resultForce, ht, Option.map]
  · intro h1
    have ht : CGcController.computePDControlForces_tmp3 d
        = CGcController.computeFloatForces_tmp1 d := by
      funext i
      simp only [CGcController.computePDControlForces_tmp3,
        CGcController.computeFloatForces_tmp1, cwiseMin, cwiseMax, cwiseProduct, h1,
        Pi.sub_apply, Pi.neg_apply, Pi.zero_apply]
      congr 2
      ring
    simp only [CGcController.computePDControlForces, CGcController.computeFloatForces, h,
      CGcController.resultForce, ht, Option.map]

/-- C28 at the one-joint controller `gcCtrlA2`, whose `des_dq`, `des_ddq` and `kp`
are zero. -/
theorem laws_nested_witness :
    (gcDataA2.des_dq_ = 0 ∧ gcDataA2.des_ddq_ = 0) ∧ gcDataA2.kp_ = 0
    ∧ CGcController.resultForce (CGcController.computeControlForces gcCtrlA2)
        = CGcController.resultForce (CGcController.computePDControlForces gcCtrlA2)
    ∧ CGcController.resultForce (CGcController.computePDControlForces gcCtrlA2)
        = CGcController.resultForce (CGcController.computeFloatForces gcCtrlA2) :=
  ⟨⟨rfl, rfl⟩, rfl, (laws_nested gcCtrlA2 gcDataA2 rfl).1 ⟨rfl, rfl⟩,
    (laws_nested gcCtrlA2 gcDataA2 rfl).2 rfl⟩

/-- C29. Clamp order: in all three laws the upper bound is applied first and the
lower bound second.  For a component `i` with `force_gc_min i > force_gc_max i`
the decoupled force is exactly `force_gc_min i`, above the upper bound, whatever
the input; for a component whose raw value already lies in
`[force_gc_min i, force_gc_max i]` the decoupled force is the raw value. -/
theorem clamp_order (d : SGcController α dof) (i : Fin dof) :
    (d.force_gc_max_ i < d.force_gc_min_ i →
      CGcController.computeControlForces_tmp3 d i = d.force_gc_min_ i
      ∧ CGcController.computePDControlForces_tmp3 d i = d.force_gc_min_ i
      ∧ CGcController.computeFloatForces_tmp1 d i = d.force_gc_min_ i
      ∧ d.force_gc_max_ i < CGcController.computeControlForces_tmp3 d i)
    ∧ ((d.force_gc_min_ i ≤ fullRaw d i ∧ fullRaw d i ≤ d.force_gc_max_ i) →
        CGcController.computeControlForces_tmp3 d i = fullRaw d i)
    ∧ ((d.force_gc_min_ i ≤ pdRaw d i ∧ pdRaw d i ≤ d.force_gc_max_ i) →
        CGcController.computePDControlForces_tmp3 d i = pdRaw d i)
    ∧ ((d.force_gc_min_ i ≤ floatRaw d i ∧ floatRaw d i ≤ d.force_gc_max_ i) →
        CGcController.computeFloatForces_tmp1 d i = floatRaw d i) := by
  have hcross : ∀ x : α, d.force_gc_max_ i < d.force_gc_min_ i →
      max (min x (d.force_gc_max_ i)) (d.force_gc_min_ i) = d.force_gc_min_ i := by
    intro x hx
    exact max_eq_right (le_trans (min_le_right _ _) (le_of_lt hx))
  have hin : ∀ x : α, d.force_gc_min_ i ≤ x → x ≤ d.force_gc_max_ i →
      max (min x (d.force_gc_max_ i)) (d.force_gc_min_ i) = x := by
    intro x h1 h2
    rw [min_eq_left h2, max_eq_left h1]
  refine ⟨fun hx => ⟨hcross _ hx, hcross _ hx, hcross _ hx, ?_⟩,
    fun h => hin _ h.1 h.2, fun h => hin _ h.1 h.2, fun h => hin _ h.1 h.2⟩
  have : CGcController.computeControlForces_tmp3 d i = d.force_gc_min_ i := hcross _ hx
  rw [this]
  exact hx

/-- C29 at one joint with crossed bounds (`min = 1`, `max = 0`) and at one joint
with the ordered bounds `[-1, 1]` and raw value `0`. -/
theorem clamp_order_witness :
    ((gcData1 1 0).force_gc_max_ 0 < (gcData1 1 0).force_gc_min_ 0
      ∧ CGcController.computeControlForces_tmp3 (gcData1 1 0) 0 = (gcData1 1 0).force_gc_min_ 0
      ∧ CGcController.computePDControlForces_tmp3 (gcData1 1 0) 0 = (gcData1 1 0).force_gc_min_ 0
      ∧ CGcController.computeFloatForces_tmp1 (gcData1 1 0) 0 = (gcData1 1 0).force_gc_min_ 0
      ∧ (gcData1 1 0).force_gc_max_ 0 < CGcController.computeControlForces_tmp3 (gcData1 1 0) 0)
    ∧ ((gcData1 (-1) 1).force_gc_min_ 0 ≤ fullRaw (gcData1 (-1) 1) 0
      ∧ fullRaw (gcData1 (-1) 1) 0 ≤ (gcData1 (-1) 1).force_gc_max_ 0
      ∧ CGcController.computeControlForces_tmp3 (gcData1 (-1) 1) 0 = fullRaw (gcData1 (-1) 1) 0) :=
  ⟨⟨by simp [gcData1], (clamp_order (gcData1 1 0) 0).1 (by simp [gcData1])⟩,
    by simp [gcData1, fullRaw], by simp [gcData1, fullRaw],
    (clamp_order (gcData1 (-1) 1) 0).2.1 ⟨by simp [gcData1, fullRaw], by simp [gcData1, fullRaw]⟩⟩

end GcAlgebra

/-! ## Joint-space controller: binding of the COM records and iterator reads -/

theorem nonRootLinksFrom_length {α : Type} (links : List (SRigidBody α)) :
    ∀ k, (nonRootLinksFrom k links).length = nonRootCount links := by
  induction links with
  | nil => intro k; rfl
  | cons l rest ih =>
    intro k
    cases hl : l.is_root_ <;>
      simp [nonRootLinksFrom, nonRootCount, List.enumFrom, List.filter, hl] <;>
      simpa [nonRootLinksFrom, nonRootCount] using ih (k + 1)

section GcBinding

variable {α : Type} [LinearOrderedField α] {dof : Nat}

/-- The lockstep loop binds the COM records to the first non-root links, in
order, and adds up their masses. -/
theorem init_loop_binds (getIdForLink : String → Int) (n : Nat) (itr : List (SRigidBody α)) :
    ∀ (coms : List SCOMInfo) (mass : α) (k : Nat), k + itr.length = n →
      coms.length ≤ nonRootCount itr →
      ∃ itr1, CGcController.init_loop getIdForLink n coms itr mass
        = some (true, ((nonRootLinksFrom k itr).take coms.length).map (boundCom getIdForLink),
            mass + (((nonRootLinksFrom k itr).take coms.length).map (fun e => e.2.mass_)).sum,
            itr1) := by
  induction itr with
  | nil =>
    intro coms mass k _ hle
    have hc : coms = [] := by
      cases coms with
      | nil => rfl
      | cons c cs => simp [nonRootCount] at hle
    subst hc
    exact ⟨[], by simp [CGcController.init_loop, nonRootLinksFrom]⟩
  | cons l rest ih =>
    intro coms mass k hk hle
    cases coms with
    | nil => exact ⟨l :: rest, by simp [CGcController.init_loop]⟩
    | cons com coms =>
      cases hl : l.is_root_ with
      | true =>
        have hcount : nonRootCount (l :: rest) = nonRootCount rest := by
          simp [nonRootCount, List.filter, hl]
        have hnr : nonRootLinksFrom k (l :: rest) = nonRootLinksFrom (k + 1) rest := by
          simp [nonRootLinksFrom, List.enumFrom, List.filter, hl]
        obtain ⟨itr1, h1⟩ := ih (com :: coms) mass (k + 1)
          (by simp only [List.length_cons] at hk; omega) (by rw [← hcount]; exact hle)
        refine ⟨itr1, ?_⟩
        rw [hnr, ← h1]
        simp [CGcController.init_loop, CGcController.skipRoots, hl]
      | false =>
        have hcount : nonRootCount (l :: rest) = nonRootCount rest + 1 := by
          simp [nonRootCount, List.filter, hl]
        have hnr : nonRootLinksFrom k (l :: rest) = (k, l) :: nonRootLinksFrom (k + 1) rest := by
          simp [nonRootLinksFrom, List.enumFrom, List.filter, hl]
        have hpos : n - (rest.length + 1) = k := by
          simp only [List.length_cons] at hk
          omega
        obtain ⟨itr1, h1⟩ := ih coms (mass + l.mass_) (k + 1)
          (by simp only [List.length_cons] at hk; omega)
          (by simp only [List.length_cons] at hle; omega)
        refine ⟨itr1, ?_⟩
        simp only [CGcController.init_loop, CGcController.skipRoots, hl, Bool.false_eq_true,
          if_false, h1, hnr, hpos, List.length_cons, List.take_succ_cons, List.map_cons,
          List.sum_cons, boundCom, add_assoc]

/-- The three outcomes of `init` on valid arguments, by the number of COM records
against the number of non-root links. -/
theorem gc_init_outcome (getIdForLink : String → Int)
    (c : CGcController α dof) (data : SGcController α dof) (dyn : CDynamicsBase)
    (robot : SRobotParsed α)
    (hdata : data.has_been_init_ = true) (hdyn : dyn.has_been_init_ = true)
    (hrobot : data.robot_ = some robot) :
    (data.gc_model_.coms_.length = nonRootCount robot.robot_br_rep_ →
      ∃ c1, CGcController.init getIdForLink c (some data) (some dyn) = some (true, c1))
    ∧ (data.gc_model_.coms_.length < nonRootCount robot.robot_br_rep_ →
      ∃ c1, CGcController.init getIdForLink c (some data) (some dyn) = some (false, c1))
    ∧ (nonRootCount robot.robot_br_rep_ < data.gc_model_.coms_.length →
      CGcController.init getIdForLink c (some data) (some dyn) = none) := by
  obtain ⟨hle, hgt⟩ := init_loop_spec getIdForLink robot.robot_br_rep_.length
    data.gc_model_.coms_ robot.robot_br_rep_ (0 : α)
  refine ⟨fun h => ?_, fun h => ?_, fun h => ?_⟩
  · obtain ⟨coms1, mass1, itr1, h1, h2, _⟩ := hle (by omega)
    have h0 : nonRootCount itr1 = 0 := by omega
    cases itr1 with
    | nil => simp [CGcController.init, hdata, hdyn, hrobot, h1]
    | cons l rest =>
      simp [CGcController.init, hdata, hdyn, hrobot, h1,
        (skipRootsGuarded_nil_iff (l :: rest)).mpr h0]
  · obtain ⟨coms1, mass1, itr1, h1, h2, _⟩ := hle (by omega)
    have h0 : nonRootCount itr1 ≠ 0 := by omega
    cases itr1 with
    | nil => exact absurd rfl h0
    | cons l rest =>
      cases hg : CGcController.skipRootsGuarded (l :: rest) with
      | nil => exact absurd ((skipRootsGuarded_nil_iff (l :: rest)).mp hg) h0
      | cons l1 rest1 =>
        simp [CGcController.init, hdata, hdyn, hrobot, h1, hg, CGcController.init_catch]
  · simp [CGcController.init, hdata, hdyn, hrobot, hgt h]

/-- C23. GC model binding on successful init: when `init` (on initialized data
and dynamics arguments, robot bound) returns true, `gc_model_.mass_` is the sum of
the masses of the non-root links, whatever `mass_` held before, and the COM
records are, in order, those of the non-root links in iteration order: the
`i`-th record carries the name of the `i`-th non-root link, the reference to it
and `link_dynamic_id_ = getIdForLink(name)`. -/
theorem gc_init_binding (getIdForLink : String → Int)
    (c c1 : CGcController α dof) (data : SGcController α dof) (dyn : CDynamicsBase)
    (robot : SRobotParsed α)
    (hdata : data.has_been_init_ = true) (hdyn : dyn.has_been_init_ = true)
    (hrobot : data.robot_ = some robot)
    (hret : CGcController.init getIdForLink c (some data) (some dyn) = some (true, c1)) :
    data.gc_model_.coms_.length = nonRootCount robot.robot_br_rep_
    ∧ c1.has_been_init_ = true
    ∧ ∃ data1, c1.data_ = some data1
      ∧ data1.gc_model_.mass_
          = ((nonRootLinksFrom 0 robot.robot_br_rep_).map (fun e => e.2.mass_)).sum
      ∧ data1.gc_model_.coms_
          = (nonRootLinksFrom 0 robot.robot_br_rep_).map (boundCom getIdForLink)
      ∧ data1.gc_model_.A_ = data.gc_model_.A_ ∧ data1.gc_model_.g_ = data.gc_model_.g_ := by
  obtain ⟨_, hlt, hgt⟩ := gc_init_outcome getIdForLink c data dyn robot hdata hdyn hrobot
  have hsize : data.gc_model_.coms_.length = nonRootCount robot.robot_br_rep_ := by
    rcases Nat.lt_trichotomy data.gc_model_.coms_.length (nonRootCount robot.robot_br_rep_)
      with h | h | h
    · obtain ⟨c2, h2⟩ := hlt h
      rw [h2] at hret
      simp at hret
    · exact h
    · rw [hgt h] at hret
      simp at hret
  obtain ⟨itr1, hb⟩ := init_loop_binds getIdForLink robot.robot_br_rep_.length
    robot.robot_br_rep_ data.gc_model_.coms_ (0 : α) 0 (by simp) (by omega)
  have htake : (nonRootLinksFrom 0 robot.robot_br_rep_).take data.gc_model_.coms_.length
      = nonRootLinksFrom 0 robot.robot_br_rep_ := by
    apply List.take_of_length_le
    rw [nonRootLinksFrom_length, hsize]
  rw [htake, zero_add] at hb
  refine ⟨hsize, ?_⟩
  simp only [CGcController.init, hdata, hdyn, hrobot, hb, Bool.true_eq_false, if_false] at hret
  cases itr1 with
  | nil =>
    simp only [Option.some.injEq, Prod.mk.injEq, true_and] at hret
    subst hret
    exact ⟨rfl, _, rfl, rfl, rfl, rfl, rfl⟩
  | cons l rest =>
    cases hg : CGcController.skipRootsGuarded (l :: rest) with
    | nil =>
      simp only [hg, Option.some.injEq, Prod.mk.injEq, true_and] at hret
      subst hret
      exact ⟨rfl, _, rfl, rfl, rfl, rfl, rfl⟩
    | cons l1 rest1 =>
      simp [hg, CGcController.init_catch] at hret

/-- C23 at the robot `robot2` (root `base`, link `link1` of mass 2) with one COM
record and a model whose `mass_` was 5 before the call. -/
theorem gc_init_binding_witness :
    ∃ c1, CGcController.init linkId7 gcCtrlNew (some (gcDataRobot [comBlank]))
        (some { has_been_init_ := true }) = some (true, c1)
      ∧ (gcDataRobot [comBlank]).gc_model_.coms_.length = nonRootCount robot2.robot_br_rep_
      ∧ c1.has_been_init_ = true
      ∧ ∃ data1, c1.data_ = some data1
        ∧ data1.gc_model_.mass_
            = ((nonRootLinksFrom 0 robot2.robot_br_rep_).map (fun e => e.2.mass_)).sum
        ∧ data1.gc_model_.coms_
            = (nonRootLinksFrom 0 robot2.robot_br_rep_).map (boundCom linkId7)
        ∧ data1.gc_model_.A_ = (gcDataRobot [comBlank]).gc_model_.A_
        ∧ data1.gc_model_.g_ = (gcDataRobot [comBlank]).gc_model_.g_ :=
  ⟨_, rfl, gc_init_binding linkId7 gcCtrlNew _ (gcDataRobot [comBlank])
    { has_been_init_ := true } robot2 rfl rfl rfl rfl⟩

/-- C30, the reads of the link iterator as the code performs them. On valid
arguments `init` has a result, so every read of `is_root_`, `name_` and `mass_`
is at an element, exactly when the COM records do not outnumber the non-root
links, wherever the roots sit; when the COM records outnumber the non-root links
the loop `while(itr->is_root_) ++itr` reads `is_root_` at the end position and
there is no result. -/
theorem gc_init_reads_end_iff (getIdForLink : String → Int)
    (c : CGcController α dof) (data : SGcController α dof) (dyn : CDynamicsBase)
    (robot : SRobotParsed α)
    (hdata : data.has_been_init_ = true) (hdyn : dyn.has_been_init_ = true)
    (hrobot : data.robot_ = some robot) :
    (CGcController.init getIdForLink c (some data) (some dyn) = none
      ↔ nonRootCount robot.robot_br_rep_ < data.gc_model_.coms_.length) := by
  obtain ⟨heq, hlt, hgt⟩ := gc_init_outcome getIdForLink c data dyn robot hdata hdyn hrobot
  constructor
  · intro hnone
    by_contra hn
    rcases Nat.lt_or_eq_of_le (Nat.le_of_not_lt hn) with h | h
    · obtain ⟨c1, h1⟩ := hlt h
      rw [h1] at hnone
      simp at hnone
    · obtain ⟨c1, h1⟩ := heq h
      rw [h1] at hnone
      simp at hnone
  · exact hgt

/-- C30 at `robot2` with two COM records (the read at the end position), and, for
contrast, the robot `robotRootLast` with one COM record, whose root at the end is
skipped by the guarded loop. -/
theorem gc_init_reads_end_iff_witness :
    (CGcController.init linkId7 gcCtrlNew (some (gcDataRobot [comBlank, comBlank]))
        (some { has_been_init_ := true }) = none
      ↔ nonRootCount robot2.robot_br_rep_
          < (gcDataRobot [comBlank, comBlank]).gc_model_.coms_.length)
    ∧ CGcController.init linkId7 gcCtrlNew (some (gcDataRobot [comBlank, comBlank]))
        (some { has_been_init_ := true }) = none
    ∧ (CGcController.init linkId7 gcCtrlNew
        (some { gcDataRobot [comBlank] with robot_ := some robotRootLast })
        (some { has_been_init_ := true })).map (fun r => r.1) = some true :=
  ⟨gc_init_reads_end_iff linkId7 gcCtrlNew (gcDataRobot [comBlank, comBlank])
      { has_been_init_ := true } robot2 rfl rfl rfl,
    rfl, rfl⟩

end GcBinding

/-! ## Task controller: what the cascade guarantees between levels -/

section CascadeAlgebra

variable {α : Type} [LinearOrderedField α] {dof : Nat}

/-- The multi-task branch of `computeRangeSpaces`: it returns true and leaves
`R_i` in every descriptor of level `i`. -/
theorem computeRangeSpaces_multi_result (c : CTaskController α dof) (w : World α dof)
    (data : STaskController α dof) (levels : List (List Nat))
    (hd : c.data_ = some data) (hcount : c.task_count_ ≠ 1)
    (hk : c.tasks_.getNumPriorityLevels = data.tasks_.getNumPriorityLevels)
    (hlv : data.tasks_.mlvec_ = levels.map (List.map some))
    (hone : ∀ i j p, p ∈ levels.getD i [] → p ∈ levels.getD j [] → i = j) :
    ∃ w1, CTaskController.computeRangeSpaces c w = some (true, w1)
      ∧ ∀ i p, p ∈ levels.getD i [] →
          (w1.task_ds_ p).range_space_ = cascadeRange w.task_ds_ levels i := by
  have hlen : c.tasks_.getNumPriorityLevels = levels.length := by
    rw [hk]
    simp [CMappedMultiLevelList.getNumPriorityLevels, hlv]
  obtain ⟨mem1, h1, _, _, h4⟩ :=
    rangeSpaces_levels_spec data levels hlv w.task_ds_ levels.length 0 w.task_ds_
      (by omega) (fun _ => rfl)
  refine ⟨{ w with task_ds_ := mem1 }, ?_, ?_⟩
  · simp only [CTaskController.computeRangeSpaces, hd, if_neg hcount, hlen,
      List.range_eq_range']
    have h0 : cascadeRange w.task_ds_ levels 0 = 1 := rfl
    rw [h0] at h1
    rw [h1]
  · intro i p hp
    have hi : i < levels.length := by
      by_contra hge
      have hnil : levels.getD i [] = [] := by
        simp [List.getD, List.getElem?_eq_none (Nat.le_of_not_lt hge)]
      rw [hnil] at hp
      exact List.not_mem_nil _ hp
    refine h4 i (Nat.zero_le i) (by omega) p hp ?_
    intro j hij _ hpj
    have := hone i j p hp hpj
    omega

/-- The accumulated product of a later level has the accumulated product of every
earlier level as a left factor. -/
theorem cascadeRange_factor (mem : Nat → STaskBase α dof) (levels : List (List Nat))
    (j : Nat) : ∀ i, j ≤ i → ∃ M, cascadeRange mem levels i = cascadeRange mem levels j * M := by
  intro i hji
  induction i with
  | zero =>
    have : j = 0 := by omega
    subst this
    exact ⟨1, (mul_one _).symm⟩
  | succ i ih =>
    rcases Nat.lt_or_eq_of_le hji with h | h
    · obtain ⟨M, hM⟩ := ih (by omega)
      exact ⟨M * levelNullSpace mem (levels.getD i []), by
        simp only [cascadeRange]
        rw [hM, mul_assoc]⟩
    · subst h
      exact ⟨1, (mul_one _).symm⟩

theorem cascadeRange_one (mem : Nat → STaskBase α dof) (levels : List (List Nat)) :
    cascadeRange mem levels 1 = levelNullSpace mem (levels.getD 0 []) := by
  simp [cascadeRange]

/-- C24. Level 0 is never disturbed: after the multi-task cascade (same
configuration as for the cascade itself) the range space of every descriptor of a
level `i ≥ 1` factors as `L_0 * M`, where `L_0` is the product of the null spaces
of the level-0 tasks; hence every row vector `v` with `v * L_0 = 0` satisfies
`v * range_space = 0`. -/
theorem level0_never_disturbed (c : CTaskController α dof) (w : World α dof)
    (data : STaskController α dof) (levels : List (List Nat))
    (hd : c.data_ = some data) (hcount : c.task_count_ ≠ 1)
    (hk : c.tasks_.getNumPriorityLevels = data.tasks_.getNumPriorityLevels)
    (hlv : data.tasks_.mlvec_ = levels.map (List.map some))
    (hone : ∀ i j p, p ∈ levels.getD i [] → p ∈ levels.getD j [] → i = j) :
    ∃ w1, CTaskController.computeRangeSpaces c w = some (true, w1)
      ∧ ∀ i p, 1 ≤ i → p ∈ levels.getD i [] →
          (∃ M, (w1.task_ds_ p).range_space_
              = levelNullSpace w.task_ds_ (levels.getD 0 []) * M)
          ∧ ∀ v : Fin dof → α,
              Matrix.vecMul v (levelNullSpace w.task_ds_ (levels.getD 0 [])) = 0 →
              Matrix.vecMul v (w1.task_ds_ p).range_space_ = 0 := by
  obtain ⟨w1, h1, h2⟩ := computeRangeSpaces_multi_result c w data levels hd hcount hk hlv hone
  refine ⟨w1, h1, ?_⟩
  intro i p hi hp
  obtain ⟨M, hM⟩ := cascadeRange_factor w.task_ds_ levels 1 i hi
  rw [cascadeRange_one] at hM
  have hR : (w1.task_ds_ p).range_space_ = levelNullSpace w.task_ds_ (levels.getD 0 []) * M := by
    rw [h2 i p hp, hM]
  refine ⟨⟨M, hR⟩, ?_⟩
  intro v hv
  rw [hR, ← Matrix.vecMul_vecMul, hv, Matrix.zero_vecMul]

theorem levels01_one_level (i j p : Nat) (hi : p ∈ ([[0], [1]] : List (List Nat)).getD i [])
    (hj : p ∈ ([[0], [1]] : List (List Nat)).getD j []) : i = j := by
  match i, j with
  | 0, 0 => rfl
  | 1, 1 => rfl
  | 0, 1 => simp [List.getD] at hi hj; omega
  | 1, 0 => simp [List.getD] at hi hj; omega
  | 0, j + 2 => simp [List.getD] at hj
  | 1, j + 2 => simp [List.getD] at hj
  | i + 2, _ => simp [List.getD] at hi

/-- C24 at the three-joint example: one level-0 task with null space
`diag(0,1,1)` and one level-1 task.  The level-1 range space is `diag(0,1,1)`, of
rank 2, and annihilates the direction `e1` on both sides. -/
theorem level0_never_disturbed_witness :
    ∃ w1, CTaskController.computeRangeSpaces taskCtrl3d world3d = some (true, w1)
      ∧ (∀ i p, 1 ≤ i → p ∈ ([[0], [1]] : List (List Nat)).getD i [] →
          (∃ M, (w1.task_ds_ p).range_space_
              = levelNullSpace world3d.task_ds_ (([[0], [1]] : List (List Nat)).getD 0 []) * M)
          ∧ ∀ v : Fin 3 → ℚ,
              Matrix.vecMul v
                (levelNullSpace world3d.task_ds_ (([[0], [1]] : List (List Nat)).getD 0 [])) = 0 →
              Matrix.vecMul v (w1.task_ds_ p).range_space_ = 0)
      ∧ (w1.task_ds_ 1).range_space_ = Matrix.diagonal (fun i => if i = 0 then 0 else 1)
      ∧ (w1.task_ds_ 1).range_space_.rank = 2
      ∧ Matrix.vecMul ![1, 0, 0] (w1.task_ds_ 1).range_space_ = 0
      ∧ (w1.task_ds_ 1).range_space_.mulVec ![1, 0, 0] = 0 := by
  obtain ⟨w1, h1, h2⟩ := level0_never_disturbed taskCtrl3d world3d taskData3d [[0], [1]]
    rfl (by decide) rfl rfl levels01_one_level
  obtain ⟨w2, k1, k2⟩ := computeRangeSpaces_multi_result taskCtrl3d world3d taskData3d [[0], [1]]
    rfl (by decide) rfl rfl levels01_one_level
  have hw : w2 = w1 := by
    rw [k1] at h1
    simpa using h1
  subst hw
  have hR : (w2.task_ds_ 1).range_space_
      = Matrix.diagonal (fun i : Fin 3 => if i = 0 then (0 : ℚ) else 1) := by
    rw [k2 1 1 (by simp [List.getD]), cascadeRange_one]
    simp [levelNullSpace, List.getD, world3d, mem3d]
  refine ⟨w2, h1, h2, hR, ?_, ?_, ?_⟩
  · rw [hR, Matrix.rank_diagonal]
    simp [Fintype.card_subtype]
    decide
  · rw [hR]
    funext j
    fin_cases j <;> simp [Matrix.vecMul_diagonal]
  · rw [hR]
    funext j
    fin_cases j <;> simp [Matrix.mulVec_diagonal]

theorem levels012_one_level (i j p : Nat)
    (hi : p ∈ ([[0], [1], [2]] : List (List Nat)).getD i [])
    (hj : p ∈ ([[0], [1], [2]] : List (List Nat)).getD j []) : i = j := by
  match i, j with
  | 0, 0 => rfl
  | 1, 1 => rfl
  | 2, 2 => rfl
  | 0, 1 => simp [List.getD] at hi hj; omega
  | 0, 2 => simp [List.getD] at hi hj; omega
  | 1, 0 => simp [List.getD] at hi hj; omega
  | 1, 2 => simp [List.getD] at hi hj; omega
  | 2, 0 => simp [List.getD] at hi hj; omega
  | 2, 1 => simp [List.getD] at hi hj; omega
  | 0, j + 3 => simp [List.getD] at hj
  | 1, j + 3 => simp [List.getD] at hj
  | 2, j + 3 => simp [List.getD] at hj
  | i + 3, _ => simp [List.getD] at hi

/-- C22, as stated, fails for `j ≥ 1`. Three levels on two joints: the level-0
null space is the orthogonal projector onto `(1, 1)`, the level-1 null space the
projector onto the first axis.  After the cascade the level-2 range space maps
`(1, 0)` to `(1/2, 1/2)`, and no vector is mapped to `(1/2, 1/2)` by `L_1`.
Read on row vectors the inclusion fails as well, at `j = 0`: `(1, 0)` times the
level-2 range space is `(1/2, 0)`, and no row vector times `L_0` is `(1/2, 0)`. -/
theorem range_space_leaves_level1_image :
    (CTaskController.computeRangeSpaces taskCtrl3L world3L).map
        (fun r => (r.1, (r.2.task_ds_ 2).range_space_.mulVec ![1, 0]))
      = some (true, ![1 / 2, 1 / 2])
    ∧ (¬ ∃ u : Fin 2 → ℚ,
        (levelNullSpace world3L.task_ds_ (([[0], [1], [2]] : List (List Nat)).getD 1 [])).mulVec u
          = ![1 / 2, 1 / 2])
    ∧ (CTaskController.computeRangeSpaces taskCtrl3L world3L).map
        (fun r => (r.1, Matrix.vecMul ![1, 0] (r.2.task_ds_ 2).range_space_))
      = some (true, ![1 / 2, 0])
    ∧ ¬ ∃ u : Fin 2 → ℚ,
        Matrix.vecMul u
          (levelNullSpace world3L.task_ds_ (([[0], [1], [2]] : List (List Nat)).getD 0 []))
          = ![1 / 2, 0] := by
  obtain ⟨w1, h1, h2⟩ := computeRangeSpaces_multi_result taskCtrl3L world3L taskData3L
    [[0], [1], [2]] rfl (by decide) rfl rfl levels012_one_level
  refine ⟨?_, ?_, ?_, ?_⟩
  · rw [h1]
    simp only [Option.map, h2 2 2 (by simp [List.getD])]
    congr 2
    funext j
    fin_cases j <;>
      simp [cascadeRange, levelNullSpace, List.getD, world3L, mem3L, taskDs2, Matrix.mulVec,
        Matrix.dotProduct, Matrix.mul_apply, Fin.sum_univ_two, Matrix.diagonal]
  · rintro ⟨u, hu⟩
    have h1 := congrFun hu 1
    simp [levelNullSpace, List.getD, world3L, mem3L, taskDs2, Matrix.mulVec,
      Matrix.dotProduct, Fin.sum_univ_two, Matrix.diagonal] at h1
  · rw [h1]
    simp only [Option.map, h2 2 2 (by simp [List.getD])]
    congr 2
    funext j
    fin_cases j <;>
      simp [cascadeRange, levelNullSpace, List.getD, world3L, mem3L, taskDs2, Matrix.vecMul,
        Matrix.dotProduct, Matrix.mul_apply, Fin.sum_univ_two, Matrix.diagonal]
  · rintro ⟨u, hu⟩
    have h0 := congrFun hu 0
    have h1 := congrFun hu 1
    simp [levelNullSpace, List.getD, world3L, mem3L, taskDs2, Matrix.vecMul,
      Matrix.dotProduct, Fin.sum_univ_two, Matrix.diagonal] at h0 h1
    linarith

/-- C22, amended. After the multi-task cascade, for every level `i > 0` and
every level `j < i`, every vector in the image of level `i`'s range space lies in
the image of the accumulated product `L_0 * L_1 * ... * L_j` of the combined null
spaces of the levels up to `j`; for `j = 0` this is the image of `L_0`. -/
theorem range_space_in_accumulated_image (c : CTaskController α dof) (w : World α dof)
    (data : STaskController α dof) (levels : List (List Nat))
    (hd : c.data_ = some data) (hcount : c.task_count_ ≠ 1)
    (hk : c.tasks_.getNumPriorityLevels = data.tasks_.getNumPriorityLevels)
    (hlv : data.tasks_.mlvec_ = levels.map (List.map some))
    (hone : ∀ i j p, p ∈ levels.getD i [] → p ∈ levels.getD j [] → i = j) :
    ∃ w1, CTaskController.computeRangeSpaces c w = some (true, w1)
      ∧ (∀ i j p, j < i → p ∈ levels.getD i [] → ∀ v : Fin dof → α,
          ∃ u, (w1.task_ds_ p).range_space_.mulVec v
            = (cascadeRange w.task_ds_ levels (j + 1)).mulVec u)
      ∧ (∀ i p, 0 < i → p ∈ levels.getD i [] → ∀ v : Fin dof → α,
          ∃ u, (w1.task_ds_ p).range_space_.mulVec v
            = (levelNullSpace w.task_ds_ (levels.getD 0 [])).mulVec u) := by
  obtain ⟨w1, h1, h2⟩ := computeRangeSpaces_multi_result c w data levels hd hcount hk hlv hone
  have hall : ∀ i j p, j < i → p ∈ levels.getD i [] → ∀ v : Fin dof → α,
      ∃ u, (w1.task_ds_ p).range_space_.mulVec v
        = (cascadeRange w.task_ds_ levels (j + 1)).mulVec u := by
    intro i j p hji hp v
    obtain ⟨M, hM⟩ := cascadeRange_factor w.task_ds_ levels (j + 1) i hji
    exact ⟨M.mulVec v, by rw [h2 i p hp, hM, Matrix.mulVec_mulVec]⟩
  refine ⟨w1, h1, hall, ?_⟩
  intro i p hi hp v
  obtain ⟨u, hu⟩ := hall i 0 p hi hp v
  exact ⟨u, by rw [hu, cascadeRange_one]⟩

/-- C22, amended, at the three-level configuration `taskCtrl3L`. -/
theorem range_space_in_accumulated_image_witness :
    ∃ w1, CTaskController.computeRangeSpaces taskCtrl3L world3L = some (true, w1)
      ∧ (∀ i j p, j < i → p ∈ ([[0], [1], [2]] : List (List Nat)).getD i [] →
          ∀ v : Fin 2 → ℚ,
          ∃ u, (w1.task_ds_ p).range_space_.mulVec v
            = (cascadeRange world3L.task_ds_ [[0], [1], [2]] (j + 1)).mulVec u)
      ∧ (∀ i p, 0 < i → p ∈ ([[0], [1], [2]] : List (List Nat)).getD i [] →
          ∀ v : Fin 2 → ℚ,
          ∃ u, (w1.task_ds_ p).range_space_.mulVec v
            = (levelNullSpace world3L.task_ds_
                (([[0], [1], [2]] : List (List Nat)).getD 0 [])).mulVec u) :=
  range_space_in_accumulated_image taskCtrl3L world3L taskData3L [[0], [1], [2]]
    rfl (by decide) rfl rfl levels012_one_level

end CascadeAlgebra

/-! ## Task controller: the model computations of a multi-task tick -/

section ModelLoop

variable {α : Type} {dof : Nat}

/-- Once `flag` is false the loop asks no task. -/
theorem computeModel_loop_false (env : Env α dof) (data : STaskController α dof) :
    ∀ (es : List (Option CTaskBase)) (w : World α dof),
      CTaskController.computeModel_loop env data es false w = some (false, w)
  | [], _ => rfl
  | _ :: es, w => by
    simp [CTaskController.computeModel_loop, computeModel_loop_false env data es w]

/-- The multi-task loop: the tasks are asked in list order up to and including the
first that fails; the flag is whether all succeeded. -/
theorem computeModel_loop_asked (env : Env α dof) (data : STaskController α dof) :
    ∀ (ts : List CTaskBase) (w : World α dof),
      CTaskController.computeModel_loop env data (ts.map some) true w
        = some (modelsOk env data ts w.task_ds_, { w with
            task_ds_ := modelsMem env data (modelsAsked env data ts w.task_ds_) w.task_ds_
            calls_ := w.calls_ ++ (modelsAsked env data ts w.task_ds_).map
              (fun t => ExternCall.computeModel t.addr_) })
  | [], w => by simp [CTaskController.computeModel_loop, modelsOk, modelsAsked, modelsMem]
  | t :: ts, w => by
    have ih := computeModel_loop_asked env data ts (CTaskController.callComputeModel env data t w).2
    cases hr : (env.computeModel t data w.task_ds_).1 with
    | false =>
      simp [CTaskController.computeModel_loop, CTaskController.callComputeModel, hr,
        computeModel_loop_false, modelsOk, modelsAsked, modelsMem]
    | true =>
      simp only [List.map_cons, CTaskController.computeModel_loop, if_true,
        CTaskController.callComputeModel, hr] at ih ⊢
      rw [ih]
      simp [modelsOk, modelsAsked, modelsMem, hr]

theorem modelsAsked_of_modelsOk (env : Env α dof) (data : STaskController α dof) :
    ∀ (ts : List CTaskBase) (mem : Nat → STaskBase α dof),
      modelsOk env data ts mem = true → modelsAsked env data ts mem = ts
  | [], _, _ => rfl
  | t :: ts, mem, h => by
    simp only [modelsOk, Bool.and_eq_true] at h
    simp [modelsAsked, h.1, modelsAsked_of_modelsOk env data ts _ h.2]

/-- C25, as stated, fails. On the two-task state `taskCtrl2`: when the dynamics
update fails, `computeDynamics` returns false having asked no task for its model
and without running the cascade (the level-1 range space is still the zero
matrix); when the first task's `computeModel` fails, the second task is never
asked. -/
theorem computeDynamics_skips_models :
    (CTaskController.computeDynamics envDynFail taskCtrl2 world2).map
        (fun r => (r.1, r.2.2.calls_, (r.2.2.task_ds_ 1).range_space_))
      = some (false, [ExternCall.updateModelMatrices], 0)
    ∧ (CTaskController.computeDynamics envModelFail taskCtrl2 world2).map
        (fun r => (r.1, r.2.2.calls_, (r.2.2.task_ds_ 1).range_space_))
      = some (false, [ExternCall.updateModelMatrices, ExternCall.computeModel 1], 0)
    ∧ taskCtrl2.tasks_.list_.map (fun e => e.2.1) = [some (taskObj 1), some (taskObj 0)] :=
  ⟨rfl, rfl, rfl⟩

/-- C25, amended. In a state with two or more registered tasks `ts` (no null
entry, `task_count_` their number) a call of `computeDynamics` runs the dynamics
update and then asks the tasks for their model in list order, whatever their
level, up to and including the first whose `computeModel` returns false, and no
task when the update returned false.  When the update and every `computeModel`
returned true, every registered task has been asked and the result is that of the
range-space cascade on the descriptors the models left; otherwise the remaining
`computeModel` calls and the cascade are skipped and the call returns false. -/
theorem computeDynamics_models_until_failure [LinearOrderedField α] (env : Env α dof)
    (c : CTaskController α dof) (w : World α dof) (data : STaskController α dof)
    (dyn : CDynamicsBase) (ts : List CTaskBase)
    (hd : c.data_ = some data) (hdyn : c.dynamics_ = some dyn)
    (hts : c.tasks_.list_.map (fun e => e.2.1) = ts.map some)
    (hcount : c.task_count_ = (ts.length : Nat)) (h2 : 2 ≤ ts.length) :
    CTaskController.computeDynamics env c w
      = (if (env.updateModelMatrices data.io_data_.sensors_ data.gc_model_).1 = true
            ∧ modelsOk env
                { data with
                  gc_model_ := (env.updateModelMatrices data.io_data_.sensors_ data.gc_model_).2 }
                ts w.task_ds_ = true
         then
          (CTaskController.computeRangeSpaces
            { c with data_ := some { data with
                gc_model_ := (env.updateModelMatrices data.io_data_.sensors_ data.gc_model_).2 } }
            (modelsWorld env
              { data with
                gc_model_ := (env.updateModelMatrices data.io_data_.sensors_ data.gc_model_).2 }
              ts w)).map
          (fun r => (r.1,
            { c with data_ := some { data with
                gc_model_ := (env.updateModelMatrices data.io_data_.sensors_ data.gc_model_).2 } },
            r.2))
         else
          some (false,
            { c with data_ := some { data with
                gc_model_ := (env.updateModelMatrices data.io_data_.sensors_ data.gc_model_).2 } },
            modelsWorld env
              { data with
                gc_model_ := (env.updateModelMatrices data.io_data_.sensors_ data.gc_model_).2 }
              (if (env.updateModelMatrices data.io_data_.sensors_ data.gc_model_).1
               then modelsAsked env
                 { data with
                   gc_model_ :=
                     (env.updateModelMatrices data.io_data_.sensors_ data.gc_model_).2 }
                 ts w.task_ds_
               else [])
              w)) := by
  have h0 : c.task_count_ ≠ 0 := by
    rw [hcount]
    exact_mod_cast (by omega : ts.length ≠ 0)
  have h1 : c.task_count_ ≠ 1 := by
    rw [hcount]
    exact_mod_cast (by omega : ts.length ≠ 1)
  simp only [CTaskController.computeDynamics, hd, hdyn, if_neg h0, if_neg h1, hts]
  cases hupd : (env.updateModelMatrices data.io_data_.sensors_ data.gc_model_).1 with
  | false =>
    simp [computeModel_loop_false, modelsWorld, modelsMem]
  | true =>
    rw [computeModel_loop_asked]
    cases hok : modelsOk env
        { data with
          gc_model_ := (env.updateModelMatrices data.io_data_.sensors_ data.gc_model_).2 }
        ts w.task_ds_ with
    | false =>
      simp [modelsWorld]
    | true =>
      have hasked := modelsAsked_of_modelsOk env _ ts w.task_ds_ hok
      simp only [hasked, if_true, and_self, modelsWorld]
      generalize @CTaskController.computeRangeSpaces α _ dof _ _ = r
      rcases r with _ | ⟨b, w3⟩ <;> rfl

/-- C25, amended, at the two-task state `taskCtrl2`: with collaborators that all
succeed both tasks are asked and the cascade runs; when the first task's
`computeModel` fails only that task is asked and the call returns false. -/
theorem computeDynamics_models_until_failure_witness :
    CTaskController.computeDynamics envOk taskCtrl2 world2
      = (CTaskController.computeRangeSpaces
          { taskCtrl2 with data_ := some { taskData2 with
              gc_model_ := (envOk.updateModelMatrices taskData2.io_data_.sensors_
                taskData2.gc_model_).2 } }
          (modelsWorld envOk
            { taskData2 with
              gc_model_ := (envOk.updateModelMatrices taskData2.io_data_.sensors_
                taskData2.gc_model_).2 }
            [taskObj 1, taskObj 0] world2)).map
        (fun r => (r.1,
          { taskCtrl2 with data_ := some { taskData2 with
              gc_model_ := (envOk.updateModelMatrices taskData2.io_data_.sensors_
                taskData2.gc_model_).2 } },
          r.2))
    ∧ CTaskController.computeDynamics envModelFail taskCtrl2 world2
      = some (false,
          { taskCtrl2 with data_ := some { taskData2 with
              gc_model_ := (envModelFail.updateModelMatrices taskData2.io_data_.sensors_
                taskData2.gc_model_).2 } },
          modelsWorld envModelFail
            { taskData2 with
              gc_model_ := (envModelFail.updateModelMatrices taskData2.io_data_.sensors_
                taskData2.gc_model_).2 }
            [taskObj 1] world2) :=
  ⟨computeDynamics_models_until_failure envOk taskCtrl2 world2 taskData2
      { has_been_init_ := true } [taskObj 1, taskObj 0] rfl rfl rfl rfl (by decide),
    computeDynamics_models_until_failure envModelFail taskCtrl2 world2 taskData2
      { has_been_init_ := true } [taskObj 1, taskObj 0] rfl rfl rfl rfl (by decide)⟩

end ModelLoop

/-! ## Task controller: the level argument of `addTask` -/

section Bookkeeping

variable {α : Type} {dof : Nat}

theorem create_list {T : Type} (l l1 : CMappedMultiLevelList T) (n : String) (x : T)
    (lvl : Nat) (h : l.create n x lvl = some l1) :
    l1.list_ = (n, x, lvl) :: l.list_ ∧ l.list_.find? (fun e => e.1 == n) = none := by
  unfold CMappedMultiLevelList.create CMappedMultiLevelList.at_ at h
  cases hf : l.list_.find? (fun e => e.1 == n) with
  | some e => rw [hf] at h; simp at h
  | none =>
    rw [hf] at h
    simp only [Option.map_none', Option.some.injEq] at h
    subst h
    exact ⟨rfl, rfl⟩

theorem filter_name_length {T : Type} (name : String) :
    ∀ (l : List (String × T × Nat)) (e : String × T × Nat),
      (l.map (fun e => e.1)).Nodup → l.find? (fun e => e.1 == name) = some e →
      (l.filter (fun e1 => !(e1.1 == name))).length + 1 = l.length
  | [], e, _, h => by simp at h
  | x :: xs, e, hnd, h => by
    rw [List.map_cons, List.nodup_cons] at hnd
    by_cases hx : x.1 = name
    · have hall : ∀ y ∈ xs, (!(y.1 == name)) = true := by
        intro y hy
        have : y.1 ≠ name := by
          intro hyn
          exact hnd.1 (List.mem_map.2 ⟨y, hy, by rw [hyn, hx]⟩)
        simpa using this
      simp [hx, List.filter_eq_self.2 hall]
    · have hx1 : (x.1 == name) = false := by simpa using hx
      rw [List.find?_cons, hx1] at h
      have ih := filter_name_length name xs e hnd.2 h
      simp [List.filter_cons, hx1, ih]

theorem bookkeepingInv_new : bookkeepingInv (@CTaskController.new α dof) := by
  refine ⟨rfl, List.nodup_nil, ?_, ?_⟩
  · intro e he; cases he
  · intro h; cases h

theorem bookkeepingInv_reset (c : CTaskController α dof) :
    bookkeepingInv (CTaskController.reset c).2 := by
  refine ⟨rfl, List.nodup_nil, ?_, ?_⟩
  · intro e he; cases he
  · intro h; cases h

theorem bookkeepingInv_addTask (c : CTaskController α dof) (name : String)
    (task : Option CTaskBase) (level : Nat) (h : bookkeepingInv c) :
    bookkeepingInv (CTaskController.addTask c name task level).2 := by
  unfold CTaskController.addTask
  cases c.data_ with
  | none => exact h
  | some d =>
    cases task with
    | none => exact h
    | some t =>
      simp only [Nat.not_lt_zero, if_false]
      by_cases hinit : t.has_been_init_ = false
      · rw [if_pos hinit]; exact h
      · rw [if_neg hinit]
        cases hc : c.tasks_.create name (some t) level with
        | none => exact h
        | some tasks =>
          obtain ⟨hl, hfresh⟩ := create_list _ _ _ _ _ hc
          obtain ⟨hcount, hnd, hsome, -⟩ := h
          have hnotin : name ∉ c.tasks_.list_.map (fun e => e.1) := by
            intro hin
            obtain ⟨y, hy, hyn⟩ := List.mem_map.1 hin
            have := List.find?_eq_none.1 hfresh y hy
            simp [hyn] at this
          by_cases h0 : c.task_count_ = 0
          · simp only [h0, if_true]
            have hnil : c.tasks_.list_ = [] := by
              rw [h0] at hcount
              exact List.length_eq_zero.1 (by exact_mod_cast hcount.symm)
            refine ⟨?_, ?_, ?_, ?_⟩
            · show (0 : Int) + 1 = (tasks.list_.length : Int)
              rw [hl, hnil]; rfl
            · show (tasks.list_.map (fun e => e.1)).Nodup
              rw [hl, List.map_cons]; exact List.nodup_cons.2 ⟨hnotin, hnd⟩
            · show ∀ e ∈ tasks.list_, ∃ t, e.2.1 = some t
              rw [hl]; intro e he
              rcases List.mem_cons.1 he with rfl | he
              · exact ⟨t, rfl⟩
              · exact hsome e he
            · intro _
              exact ⟨name, t, level, by show tasks.list_ = _; rw [hl, hnil], rfl⟩
          · simp only [h0, if_false]
            refine ⟨?_, ?_, ?_, ?_⟩
            · show c.task_count_ + 1 = (tasks.list_.length : Int)
              rw [hl, hcount]; simp
            · show (tasks.list_.map (fun e => e.1)).Nodup
              rw [hl, List.map_cons]; exact List.nodup_cons.2 ⟨hnotin, hnd⟩
            · show ∀ e ∈ tasks.list_, ∃ t, e.2.1 = some t
              rw [hl]; intro e he
              rcases List.mem_cons.1 he with rfl | he
              · exact ⟨t, rfl⟩
              · exact hsome e he
            · intro h1
              exfalso
              have h1 : c.task_count_ + 1 = 1 := h1
              exact h0 (by linarith)

theorem bookkeepingInv_removeTask (c : CTaskController α dof) (name : String)
    (h : bookkeepingInv c) :
    ∃ r, CTaskController.removeTask_given true c name = some r ∧ bookkeepingInv r.2 := by
  unfold CTaskController.removeTask_given
  cases hat : c.tasks_.at_ name with
  | none => exact ⟨_, rfl, h⟩
  | some x =>
    simp only []
    unfold CMappedMultiLevelList.at_ at hat
    unfold CMappedMultiLevelList.erase
    cases hf : c.tasks_.list_.find? (fun e => e.1 == name) with
    | none => rw [hf] at hat; simp at hat
    | some e =>
      simp only []
      obtain ⟨hcount, hnd, hsome, -⟩ := h
      have hlen := filter_name_length name c.tasks_.list_ e hnd hf
      have hnd1 : ((c.tasks_.list_.filter (fun e1 => !(e1.1 == name))).map
          (fun e => e.1)).Nodup :=
        hnd.sublist (List.Sublist.map _ (List.filter_sublist _))
      have hsome1 : ∀ e1 ∈ c.tasks_.list_.filter (fun e1 => !(e1.1 == name)),
          ∃ t, e1.2.1 = some t := fun e1 he1 => hsome e1 (List.mem_of_mem_filter he1)
      have hcount1 : c.task_count_ - 1
          = ((c.tasks_.list_.filter (fun e1 => !(e1.1 == name))).length : Int) := by
        rw [hcount, ← hlen]; push_cast; ring
      by_cases h1 : c.task_count_ - 1 = 1
      · rw [if_pos h1]
        have hone : (c.tasks_.list_.filter (fun e1 => !(e1.1 == name))).length = 1 := by
          rw [h1] at hcount1; exact_mod_cast hcount1.symm
        obtain ⟨y, hy⟩ := List.length_eq_one.1 hone
        obtain ⟨t, ht⟩ := hsome1 y (by rw [hy]; exact List.mem_singleton_self y)
        simp only [CMappedMultiLevelList.begin_, hy, List.head?_cons, Option.map_some']
        refine ⟨_, rfl, ?_, ?_, ?_, ?_⟩
        · show c.task_count_ - 1 = (([y] : List _).length : Int)
          rw [h1]; rfl
        · show (([y] : List _).map (fun e => e.1)).Nodup
          exact List.nodup_singleton _
        · intro e1 he1
          have he1 : e1 ∈ [y] := he1
          rw [List.mem_singleton.1 he1]
          exact ⟨t, ht⟩
        · intro _
          refine ⟨y.1, t, y.2.2, ?_, ht⟩
          show [y] = _
          rw [← ht]
      · rw [if_neg h1]
        exact ⟨_, rfl, hcount1, hnd1, hsome1, fun h2 => absurd h2 h1⟩

theorem bookkeepingInv_congr (c c1 : CTaskController α dof) (h1 : c1.tasks_ = c.tasks_)
    (h2 : c1.task_count_ = c.task_count_) (h3 : c1.active_task_ = c.active_task_)
    (h : bookkeepingInv c) : bookkeepingInv c1 := by
  unfold bookkeepingInv at h ⊢
  rw [h1, h2, h3]
  exact h

theorem bookkeepingInv_init_task (env : Env α dof) (c : CTaskController α dof)
    (w : World α dof) (entry : Option Nat) (h : bookkeepingInv c) :
    bookkeepingInv (CTaskController.init_task env c w entry).2.1 := by
  unfold CTaskController.init_task
  cases entry with
  | none => exact h
  | some p =>
    simp only []
    split
    · exact h
    · split
      · exact h
      · split <;> exact bookkeepingInv_addTask c _ _ _ h

theorem bookkeepingInv_init_level (env : Env α dof) :
    ∀ (es : List (Option Nat)) (c : CTaskController α dof) (w : World α dof),
      bookkeepingInv c → bookkeepingInv (CTaskController.init_level env es c w).2.1
  | [], _, _, h => h
  | e :: es, c, w, h => by
    have h1 := bookkeepingInv_init_task env c w e h
    unfold CTaskController.init_level
    rcases hr : CTaskController.init_task env c w e with ⟨b, c1, w1⟩
    rw [hr] at h1
    cases b with
    | false => exact h1
    | true => exact bookkeepingInv_init_level env es c1 w1 h1

theorem bookkeepingInv_init_levels (env : Env α dof) :
    ∀ (ls : List (List (Option Nat))) (c : CTaskController α dof) (w : World α dof),
      bookkeepingInv c → bookkeepingInv (CTaskController.init_levels env ls c w).2.1
  | [], _, _, h => h
  | l :: ls, c, w, h => by
    have h1 := bookkeepingInv_init_level env l c w h
    unfold CTaskController.init_levels
    rcases hr : CTaskController.init_level env l c w with ⟨b, c1, w1⟩
    rw [hr] at h1
    cases b with
    | false => exact h1
    | true => exact bookkeepingInv_init_levels env ls c1 w1 h1

theorem bookkeepingInv_init (env : Env α dof) (c : CTaskController α dof) (w : World α dof)
    (arg_data : Option (STaskController α dof)) (arg_dynamics : Option CDynamicsBase) :
    bookkeepingInv (CTaskController.init env c w arg_data arg_dynamics).2.1 := by
  have h0 := bookkeepingInv_reset c
  unfold CTaskController.init
  cases arg_data with
  | none => exact bookkeepingInv_congr _ _ rfl rfl rfl h0
  | some data =>
    simp only []
    split
    · exact bookkeepingInv_congr _ _ rfl rfl rfl h0
    · cases arg_dynamics with
      | none => exact bookkeepingInv_congr _ _ rfl rfl rfl h0
      | some dyn =>
        simp only []
        split
        · exact bookkeepingInv_congr _ _ rfl rfl rfl h0
        · split
          · exact bookkeepingInv_congr _ _ rfl rfl rfl h0
          · have h3 := bookkeepingInv_init_levels env data.tasks_.mlvec_
              { (CTaskController.reset c).2 with
                data_ := some data, dynamics_ := some dyn, has_been_init_ := true
                servo_ := { has_been_init_ := env.servo_init data.robot_name_ } } w
              (bookkeepingInv_congr _ _ rfl rfl rfl h0)
            rcases hr : CTaskController.init_levels env data.tasks_.mlvec_
              { (CTaskController.reset c).2 with
                data_ := some data, dynamics_ := some dyn, has_been_init_ := true
                servo_ := { has_been_init_ := env.servo_init data.robot_name_ } } w
              with ⟨b, c4, w4⟩
            rw [hr] at h3
            cases b with
            | false => exact bookkeepingInv_congr _ _ rfl rfl rfl h3
            | true => exact bookkeepingInv_congr _ _ rfl rfl rfl h3

theorem bookkeepingInv_callStep (c : CTaskController α dof) (k : Call α dof)
    (h : bookkeepingInv c) : ∃ c1, callStep c k = some c1 ∧ bookkeepingInv c1 := by
  cases k with
  | init env w arg_data arg_dynamics => exact ⟨_, rfl, bookkeepingInv_init env c w _ _⟩
  | reset => exact ⟨_, rfl, bookkeepingInv_reset c⟩
  | addTask name task level => exact ⟨_, rfl, bookkeepingInv_addTask c name task level h⟩
  | removeTask name =>
    obtain ⟨r, hr, hinv⟩ := bookkeepingInv_removeTask c name h
    exact ⟨r.2, by simp [callStep, hr], hinv⟩

theorem bookkeepingInv_runCalls :
    ∀ (ks : List (Call α dof)) (c : CTaskController α dof), bookkeepingInv c →
      ∃ c1, runCalls ks c = some c1 ∧ bookkeepingInv c1
  | [], c, h => ⟨c, rfl, h⟩
  | k :: ks, c, h => by
    obtain ⟨c1, hc1, h1⟩ := bookkeepingInv_callStep c k h
    obtain ⟨c2, hc2, h2⟩ := bookkeepingInv_runCalls ks c1 h1
    exact ⟨c2, by simp [runCalls, hc1, hc2], h2⟩

/-- C27. Every sequence of `init`, `reset`, `addTask` and `removeTask` calls on a
freshly constructed task controller runs to a state, whatever the calls return,
and in that state `task_count_` is the number of registered tasks and, when
`task_count_` is 1, the task list holds exactly one task and `active_task_` is
that task. -/
theorem bookkeeping_invariant {α : Type} {dof : Nat} (ks : List (Call α dof)) :
    ∃ c, runCalls ks CTaskController.new = some c
      ∧ c.task_count_ = (c.tasks_.list_.length : Int)
      ∧ (c.task_count_ = 1 →
          ∃ n t l, c.tasks_.list_ = [(n, some t, l)] ∧ c.active_task_ = some t) := by
  obtain ⟨c, hc, h1, -, -, h4⟩ := bookkeepingInv_runCalls ks _ bookkeepingInv_new
  exact ⟨c, hc, h1, h4⟩

end Bookkeeping

end scl
